import Mathlib

/-!
Verification of the Boolean BEAVY gate layer of the MOTION2NX MPC framework.

The development shallowly embeds the gate implementations from
`MOTION::proto::beavy` (Boolean BEAVY input/output/XOR/INV/AND gates),
`ABYNBackend::Send`, and the BMR INV gate interface, and proves the testable
properties stated in the specification: share-reconstruction invariants,
AND-gate correctness over correlated OT, input/output round trips, error
conditions, and message accounting.

Bit vectors (`ENCRYPTO::BitVector<>`) are modelled as `List Bool`; party-local
randomness, PRG outputs and OT outputs are explicit parameters.
-/

namespace MOTION

/-- Model of `ENCRYPTO::BitVector<>`: a list of bits. -/
abbrev BV := List Bool

/-- Componentwise XOR (`operator^` on bit vectors). -/
def bvXor (a b : BV) : BV := List.zipWith Bool.xor a b

/-- Componentwise AND (`operator&` on bit vectors). -/
def bvAnd (a b : BV) : BV := List.zipWith Bool.and a b

/-- Componentwise complement (`operator~` on bit vectors). -/
def bvNot (a : BV) : BV := a.map Bool.not

/-- `BitVector::Subset(lo, hi)`: the bits at positions `lo, ..., hi - 1`. -/
def bvSubset (s : BV) (lo hi : Nat) : BV := (s.drop lo).take (hi - lo)

/-- A Boolean BEAVY wire: `num_simd` SIMD lanes, a secret share `δ`
(finalized in the setup phase) and a public share `Δ` (finalized online). -/
structure BooleanBEAVYWire where
  num_simd : Nat
  secret_share : BV := []
  public_share : BV := []
deriving DecidableEq

instance : Inhabited BooleanBEAVYWire := ⟨⟨0, [], []⟩⟩

/-- A wire whose secret share has been finalized by setup with the correct
number of lanes. -/
def BooleanBEAVYWire.wfSetup (w : BooleanBEAVYWire) : Prop :=
  w.secret_share.length = w.num_simd

/-- A wire whose public share has been finalized online with the correct
number of lanes. -/
def BooleanBEAVYWire.wfOnline (w : BooleanBEAVYWire) : Prop :=
  w.public_share.length = w.num_simd

/-- A message emitted through the BEAVY provider. -/
inductive Msg where
  | broadcastBits (gate_id : Nat) (bits : BV)
  | sendBits (dest : Nat) (gate_id : Nat) (bits : BV)
deriving DecidableEq

instance : Inhabited Msg := ⟨Msg.broadcastBits 0 []⟩

/-- A `register_for_bits_message` call: expecting `num_bits` bits from
`sender` keyed by `gate_id`. -/
structure Registration where
  sender : Nat
  gate_id : Nat
  num_bits : Nat
deriving DecidableEq

/-- Number of bits carried by a message. -/
def Msg.numBits : Msg → Nat
  | .broadcastBits _ bits => bits.length
  | .sendBits _ _ bits => bits.length

/-- Gate id of a message. -/
def Msg.gateId : Msg → Nat
  | .broadcastBits gid _ => gid
  | .sendBits _ gid _ => gid

/-- `count_bits`: total number of bits in a collection of wires
(sum of the `num_simd` of each wire). -/
def count_bits (wires : List BooleanBEAVYWire) : Nat :=
  (wires.map (·.num_simd)).sum

/-- `ALL_PARTIES` sentinel (`std::numeric_limits<std::size_t>::max()`). -/
def ALL_PARTIES : Nat := 18446744073709551615

/-- Joint reconstruction of the clear value of a two-party BEAVY wire from
party 0's view `w0` and party 1's view `w1`:
`public_share ⊕ δ_party0 ⊕ δ_party1`. -/
def recon2 (w0 w1 : BooleanBEAVYWire) : BV :=
  bvXor w0.public_share (bvXor w0.secret_share w1.secret_share)

/-! Basic lemmas about the bit-vector operations. -/

theorem length_bvXor (a b : BV) : (bvXor a b).length = min a.length b.length := by
  simp [bvXor]

theorem length_bvAnd (a b : BV) : (bvAnd a b).length = min a.length b.length := by
  simp [bvAnd]

theorem length_bvNot (a : BV) : (bvNot a).length = a.length := by
  simp [bvNot]

theorem length_bvSubset (s : BV) (lo hi : Nat) (h : hi ≤ s.length) :
    (bvSubset s lo hi).length = hi - lo := by
  simp [bvSubset]
  omega

theorem getD_bvXor (a b : BV) (i : Nat) (ha : i < a.length) (hb : i < b.length) :
    (bvXor a b).getD i false = Bool.xor (a.getD i false) (b.getD i false) := by
  have h : i < (bvXor a b).length := by rw [length_bvXor]; omega
  rw [List.getD_eq_getElem _ _ h, List.getD_eq_getElem _ _ ha, List.getD_eq_getElem _ _ hb]
  exact List.getElem_zipWith

theorem getD_bvAnd (a b : BV) (i : Nat) (ha : i < a.length) (hb : i < b.length) :
    (bvAnd a b).getD i false = Bool.and (a.getD i false) (b.getD i false) := by
  have h : i < (bvAnd a b).length := by rw [length_bvAnd]; omega
  rw [List.getD_eq_getElem _ _ h, List.getD_eq_getElem _ _ ha, List.getD_eq_getElem _ _ hb]
  exact List.getElem_zipWith

theorem getD_bvNot (a : BV) (i : Nat) (ha : i < a.length) :
    (bvNot a).getD i false = Bool.not (a.getD i false) := by
  have h : i < (bvNot a).length := by rw [length_bvNot]; omega
  rw [List.getD_eq_getElem _ _ h, List.getD_eq_getElem _ _ ha]
  simp [bvNot]

theorem getD_bvSubset (s : BV) (lo hi i : Nat) (hi2 : i < hi - lo) (hs : hi ≤ s.length) :
    (bvSubset s lo hi).getD i false = s.getD (lo + i) false := by
  have h : i < (bvSubset s lo hi).length := by rw [length_bvSubset s lo hi hs]; omega
  rw [List.getD_eq_getElem _ _ h, List.getD_eq_getElem _ _ (show lo + i < s.length by omega)]
  simp only [bvSubset]
  rw [List.getElem_take, List.getElem_drop]

theorem length_flatten_uniform (blocks : List BV) (ns : Nat)
    (h : ∀ b ∈ blocks, b.length = ns) : blocks.flatten.length = blocks.length * ns := by
  induction blocks with
  | nil => simp
  | cons b bs ih =>
      simp only [List.flatten_cons, List.length_append, List.length_cons]
      rw [h b (by simp), ih (fun c hc => h c (by simp [hc]))]
      ring

theorem getD_flatten_uniform (blocks : List BV) (ns : Nat)
    (h : ∀ b ∈ blocks, b.length = ns) (i k : Nat) (hik : i < blocks.length) (hk : k < ns) :
    blocks.flatten.getD (i * ns + k) false = (blocks.getD i []).getD k false := by
  induction blocks generalizing i with
  | nil => simp at hik
  | cons b bs ih =>
      cases i with
      | zero =>
          simp only [List.flatten_cons, Nat.zero_mul, Nat.zero_add, List.getD_cons_zero]
          exact List.getD_append _ _ _ _ (by rw [h b (by simp)]; omega)
      | succ i =>
          simp only [List.flatten_cons, List.getD_cons_succ]
          rw [List.getD_append_right _ _ _ _ (by rw [h b (by simp)]; nlinarith)]
          rw [h b (by simp)]
          have heq : (i + 1) * ns + k - ns = i * ns + k := by ring_nf; omega
          rw [heq]
          exact ih (fun c hc => h c (by simp [hc])) i (by simpa using hik)

/-! Constructor checks of the basic binary/unary Boolean BEAVY gates and the
ABYN backend send operation. -/

/-- Constructor of `detail::BasicBooleanBEAVYBinaryGate(gate_id, in_b, in_a)`:
the error it throws, if any.  It sets `num_wires_ = in_a.size()` and requires
a positive wire count, equal wire counts for both inputs, and all wires (from
both vectors) to have the `num_simd` of `in_a[0]`. -/
def detail.BasicBooleanBEAVYBinaryGate.ctorError (in_b in_a : List BooleanBEAVYWire) :
    Option String :=
  if in_a.length = 0 then some "number of wires need to be positive"
  else if in_a.length ≠ in_b.length then
    some "number of wires need to be the same for both inputs"
  else if (List.range in_a.length).all (fun i =>
      ((in_a.getD i default).num_simd == in_a.headI.num_simd) &&
      ((in_b.getD i default).num_simd == in_a.headI.num_simd))
  then none
  else some "number of SIMD values need to be the same for all wires"

/-- Output wires allocated by `detail::BasicBooleanBEAVYBinaryGate`:
`num_wires` fresh wires with the `num_simd` of `in_a[0]`. -/
def detail.BasicBooleanBEAVYBinaryGate.outputs (in_a : List BooleanBEAVYWire) :
    List BooleanBEAVYWire :=
  List.replicate in_a.length { num_simd := in_a.headI.num_simd }

/-- Constructor of `detail::BasicBooleanBEAVYUnaryGate(gate_id, in, forward)`:
the error it throws, if any. -/
def detail.BasicBooleanBEAVYUnaryGate.ctorError (inp : List BooleanBEAVYWire) :
    Option String :=
  if inp.length = 0 then some "number of wires need to be positive"
  else if (List.range inp.length).all
      (fun i => (inp.getD i default).num_simd == inp.headI.num_simd)
  then none
  else some "number of SIMD values need to be the same for all wires"

/-- Output wires of `detail::BasicBooleanBEAVYUnaryGate`: the input wires
themselves when `forward` is set, otherwise fresh wires. -/
def detail.BasicBooleanBEAVYUnaryGate.outputs (inp : List BooleanBEAVYWire)
    (forward : Bool) : List BooleanBEAVYWire :=
  if forward then inp
  else List.replicate inp.length { num_simd := inp.headI.num_simd }

/-- `ABYNBackend::Send(party_id, message)`: throws when attempting to send a
message to oneself, otherwise hands the message to the destination party's
communication handler. -/
def ABYNBackend.Send (my_id party_id : Nat) (message : Msg) : Except String Msg :=
  if party_id = my_id then Except.error "Want to send message to myself"
  else Except.ok message

/-- C6: constructing a Boolean BEAVY binary or unary gate throws exactly when
the wire vector is empty, when the two input wire vectors differ in length, or
when some wire's `num_simd` differs from the first wire's; and
`ABYNBackend::Send` throws exactly when the destination party id equals the
caller's own id. -/
theorem claim_C6_config_invalid_errors (in_b in_a inp : List BooleanBEAVYWire)
    (my_id party_id : Nat) (m : Msg) :
    ((detail.BasicBooleanBEAVYBinaryGate.ctorError in_b in_a).isSome ↔
      (in_a.length = 0 ∨ in_a.length ≠ in_b.length ∨
        ∃ i < in_a.length, (in_a.getD i default).num_simd ≠ in_a.headI.num_simd ∨
          (in_b.getD i default).num_simd ≠ in_a.headI.num_simd)) ∧
    ((detail.BasicBooleanBEAVYUnaryGate.ctorError inp).isSome ↔
      (inp.length = 0 ∨
        ∃ i < inp.length, (inp.getD i default).num_simd ≠ inp.headI.num_simd)) ∧
    ((ABYNBackend.Send my_id party_id m).isOk = false ↔ party_id = my_id) := by
  refine ⟨?_, ?_, ?_⟩
  · unfold detail.BasicBooleanBEAVYBinaryGate.ctorError
    split_ifs with h0 h1 h2
    · simp only [Option.isSome_some, true_iff]
      exact Or.inl h0
    · simp only [Option.isSome_some, true_iff]
      exact Or.inr (Or.inl h1)
    · simp only [Option.isSome_none, Bool.false_eq_true, false_iff]
      simp only [List.all_eq_true, List.mem_range, Bool.and_eq_true, beq_iff_eq] at h2
      rintro (h | h | ⟨i, hi, h | h⟩)
      · exact h0 h
      · exact h1 h
      · exact h ((h2 i hi).1)
      · exact h ((h2 i hi).2)
    · simp only [Option.isSome_some, true_iff]
      simp only [List.all_eq_true, List.mem_range, Bool.and_eq_true, beq_iff_eq,
        not_forall] at h2
      obtain ⟨i, hi, hne⟩ := h2
      refine Or.inr (Or.inr ⟨i, hi, ?_⟩)
      by_cases ha : (in_a.getD i default).num_simd = in_a.headI.num_simd
      · exact Or.inr (fun hb => hne ⟨ha, hb⟩)
      · exact Or.inl ha
  · unfold detail.BasicBooleanBEAVYUnaryGate.ctorError
    split_ifs with h0 h2
    · simp only [Option.isSome_some, true_iff]
      exact Or.inl h0
    · simp only [Option.isSome_none, Bool.false_eq_true, false_iff]
      simp only [List.all_eq_true, List.mem_range, beq_iff_eq] at h2
      rintro (h | ⟨i, hi, h⟩)
      · exact h0 h
      · exact h (h2 i hi)
    · simp only [Option.isSome_some, true_iff]
      simp only [List.all_eq_true, List.mem_range, beq_iff_eq, not_forall] at h2
      obtain ⟨i, hi, hne⟩ := h2
      exact Or.inr ⟨i, hi, hne⟩
  · unfold ABYNBackend.Send
    split_ifs with h
    · simpa [Except.isOk, Except.toBool] using h
    · simpa [Except.isOk, Except.toBool] using h

/-! The Boolean BEAVY gates of `gate.cpp`, embedded per gate.  Party-local
randomness, PRG outputs, OT outputs and received messages are parameters. -/

/-- Concatenation of the secret shares of a wire vector (the flattening
loops of the output and AND gates). -/
def flattenSec (ws : List BooleanBEAVYWire) : BV :=
  (ws.map (·.secret_share)).flatten

/-- Concatenation of the public shares of a wire vector. -/
def flattenPub (ws : List BooleanBEAVYWire) : BV :=
  (ws.map (·.public_share)).flatten

/-- `BooleanBEAVYXORGate` after both phases: for each wire pair the output
wire's secret share is the XOR of the input secret shares (`evaluate_setup`)
and its public share is the XOR of the input public shares
(`evaluate_online`).  The output wires were allocated with the `num_simd` of
`inputs_a[0]`. -/
def BooleanBEAVYXORGate.evaluate (inputs_a inputs_b : List BooleanBEAVYWire) :
    List BooleanBEAVYWire :=
  List.zipWith
    (fun w_a w_b =>
      { num_simd := inputs_a.headI.num_simd,
        secret_share := bvXor w_a.secret_share w_b.secret_share,
        public_share := bvXor w_a.public_share w_b.public_share })
    inputs_a inputs_b

/-- Messages sent by `BooleanBEAVYXORGate::evaluate_setup`: none (the body
only XORs local shares). -/
def BooleanBEAVYXORGate.setupMessages : List Msg := []

/-- Messages sent by `BooleanBEAVYXORGate::evaluate_online`: none. -/
def BooleanBEAVYXORGate.onlineMessages : List Msg := []

/-- Message registrations made by `BooleanBEAVYXORGate`'s constructor: none
(the binary base constructor only allocates output wires). -/
def BooleanBEAVYXORGate.registrations : List Registration := []

/-- `BooleanBEAVYINVGate` after both phases: when `is_my_job`, fresh output
wires receive the complemented secret share (setup) and the copied public
share (online); otherwise both evaluation methods return immediately and the
gate forwards the input wires unchanged (`forward` was set in the unary base
constructor). -/
def BooleanBEAVYINVGate.evaluate (is_my_job : Bool) (inputs : List BooleanBEAVYWire) :
    List BooleanBEAVYWire :=
  if is_my_job then
    inputs.map (fun w_in =>
      { num_simd := inputs.headI.num_simd,
        secret_share := bvNot w_in.secret_share,
        public_share := w_in.public_share })
  else inputs

/-- `BooleanBEAVYInputGateSender::evaluate_setup` for one wire: the secret
share is freshly sampled (`random`), and the public share is the secret share
XORed with this party's RNG bits toward each peer
(`rng.GetBits(input_id + wire_i, num_simd)`). -/
def BooleanBEAVYInputGateSender.setupWire (ns : Nat) (random : BV) (peerRngBits : List BV) :
    BooleanBEAVYWire :=
  { num_simd := ns, secret_share := random, public_share := peerRngBits.foldl bvXor random }

/-- Result of `BooleanBEAVYInputGateSender::evaluate_online`: the output wires
marked online-ready (in order), the messages sent, and the exception thrown,
if any. -/
structure SenderOnlineResult where
  readyWires : List BooleanBEAVYWire
  msgs : List Msg
  error : Option String
deriving DecidableEq

/-- Wire loop of `BooleanBEAVYInputGateSender::evaluate_online`: for each wire
the matching input bit vector's size is checked against `num_simd` — throwing
`"size of input bit vector != num_simd_"` on mismatch, before mutating that
wire — then the public share is XORed with the input bits and the wire is
marked online-ready.  Returns the wires marked ready and the error, if any. -/
def BooleanBEAVYInputGateSender.onlineLoop (ns : Nat) (wires : List BooleanBEAVYWire)
    (inputs : List BV) : List BooleanBEAVYWire × Option String :=
  match wires, inputs with
  | [], _ => ([], none)
  | _ :: _, [] => ([], some "vector::at out of range")
  | w :: ws, x :: xs =>
      if x.length ≠ ns then ([], some "size of input bit vector != num_simd_")
      else
        ({ w with public_share := bvXor w.public_share x } ::
            (BooleanBEAVYInputGateSender.onlineLoop ns ws xs).1,
          (BooleanBEAVYInputGateSender.onlineLoop ns ws xs).2)

/-- `BooleanBEAVYInputGateSender::evaluate_online`: runs the wire loop; when
no exception occurs, broadcasts the concatenation of the updated public
shares under the gate id. -/
def BooleanBEAVYInputGateSender.evaluate_online (gate_id ns : Nat)
    (wires : List BooleanBEAVYWire) (inputs : List BV) : SenderOnlineResult :=
  match BooleanBEAVYInputGateSender.onlineLoop ns wires inputs with
  | (ready, none) =>
      { readyWires := ready,
        msgs := [Msg.broadcastBits gate_id (flattenPub ready)],
        error := none }
  | (ready, some e) => { readyWires := ready, msgs := [], error := some e }

/-- Registration made by the `BooleanBEAVYInputGateReceiver` constructor:
`num_wires * num_simd` bits from the input owner, keyed by the gate id. -/
def BooleanBEAVYInputGateReceiver.registration (input_owner gate_id num_wires num_simd : Nat) :
    Registration :=
  ⟨input_owner, gate_id, num_wires * num_simd⟩

/-- `BooleanBEAVYInputGateReceiver::evaluate_setup` for one wire: the secret
share is the input owner's RNG bits for this wire (the "their RNG" instance
aligned with the sender's "my RNG" toward this party). -/
def BooleanBEAVYInputGateReceiver.setupWire (ns : Nat) (rngBits : BV) : BooleanBEAVYWire :=
  { num_simd := ns, secret_share := rngBits, public_share := [] }

/-- `BooleanBEAVYInputGateReceiver::evaluate_online` for wire `wire_i`: assign
the wire's slice of the received broadcast as its public share. -/
def BooleanBEAVYInputGateReceiver.onlineWire (ns : Nat) (public_shares : BV) (wire_i : Nat)
    (w : BooleanBEAVYWire) : BooleanBEAVYWire :=
  { w with public_share := bvSubset public_shares (wire_i * ns) ((wire_i + 1) * ns) }

/-- Registrations made by the `BooleanBEAVYOutputGate` constructor: when this
party receives the output (owner is `ALL_PARTIES` or itself), one registration
of `count_bits inputs` bits per other party, keyed by the gate id. -/
def BooleanBEAVYOutputGate.registrations (my_id num_parties output_owner gate_id : Nat)
    (inputs : List BooleanBEAVYWire) : List Registration :=
  if output_owner = ALL_PARTIES ∨ output_owner = my_id then
    ((List.range num_parties).filter (· ≠ my_id)).map
      (fun p => ⟨p, gate_id, count_bits inputs⟩)
  else []

/-- `BooleanBEAVYOutputGate::get_output_future`: available only when the
output owner is `ALL_PARTIES` or this party; otherwise the call throws. -/
def BooleanBEAVYOutputGate.get_output_future (my_id output_owner : Nat) : Except String Unit :=
  if output_owner = ALL_PARTIES ∨ output_owner = my_id then Except.ok ()
  else Except.error "not this parties output"

/-- Messages sent by `BooleanBEAVYOutputGate::evaluate_online`: unless this
party is the single owner, it broadcasts (owner `ALL_PARTIES`) or sends to the
owner its concatenated secret shares. -/
def BooleanBEAVYOutputGate.onlineMsgs (my_id gate_id output_owner : Nat)
    (inputs : List BooleanBEAVYWire) : List Msg :=
  if output_owner ≠ my_id then
    if output_owner = ALL_PARTIES then [Msg.broadcastBits gate_id (flattenSec inputs)]
    else [Msg.sendBits output_owner gate_id (flattenSec inputs)]
  else []

/-- Final loop of `BooleanBEAVYOutputGate::evaluate_online`: slice the
combined secret share at each wire's offset and XOR the wire's public share,
yielding the clear output per wire. -/
def BooleanBEAVYOutputGate.distribute (s : BV) (inputs : List BooleanBEAVYWire)
    (bit_offset : Nat) : List BV :=
  match inputs with
  | [] => []
  | w :: ws =>
      bvXor (bvSubset s bit_offset (bit_offset + w.num_simd)) w.public_share ::
        BooleanBEAVYOutputGate.distribute s ws (bit_offset + w.num_simd)

/-- Output value resolved by `BooleanBEAVYOutputGate::evaluate_online`: when
this party receives the output, its concatenated secret shares are XORed with
each other party's received share and de-flattened per wire against the public
shares; otherwise no value is set. -/
def BooleanBEAVYOutputGate.onlineValue (my_id num_parties output_owner : Nat)
    (inputs : List BooleanBEAVYWire) (other_shares : Nat → BV) : Option (List BV) :=
  if output_owner = ALL_PARTIES ∨ output_owner = my_id then
    some (BooleanBEAVYOutputGate.distribute
      (((List.range num_parties).filter (· ≠ my_id)).foldl
        (fun acc p => bvXor acc (other_shares p)) (flattenSec inputs))
      inputs 0)
  else none

/-- Registration made by the `BooleanBEAVYANDGate` constructor:
`count_bits inputs_a` bits from the single peer `1 - my_id`, keyed by the gate
id (an XCOT-bit sender and receiver of the same width are also registered). -/
def BooleanBEAVYANDGate.registration (my_id gate_id : Nat)
    (inputs_a : List BooleanBEAVYWire) : Registration :=
  ⟨1 - my_id, gate_id, count_bits inputs_a⟩

/-- State left by `BooleanBEAVYANDGate::evaluate_setup` for the online
phase. -/
structure ANDSetupState where
  delta_a_share : BV
  delta_b_share : BV
  Delta_y_share : BV
deriving DecidableEq

/-- Output wires of `BooleanBEAVYANDGate` after `evaluate_setup`: each gets a
fresh random secret share and is marked setup-ready. -/
def BooleanBEAVYANDGate.setupWires (inputs_a : List BooleanBEAVYWire) (rand : List BV) :
    List BooleanBEAVYWire :=
  rand.map (fun r => { num_simd := inputs_a.headI.num_simd, secret_share := r })

/-- `BooleanBEAVYANDGate::evaluate_setup`: flatten `δ_a`, `δ_b` and the fresh
output shares `δ_c = rand`; this party's XCOT receiver uses choices `δ_a` and
its XCOT sender uses correlations `δ_b`; then
`Delta_y_share := δ_c ⊕ ((δ_a & δ_b) ⊕ ot_sender_out ⊕ ot_receiver_out)`. -/
def BooleanBEAVYANDGate.evaluate_setup (inputs_a inputs_b : List BooleanBEAVYWire)
    (rand : List BV) (ot_sender_out ot_receiver_out : BV) : ANDSetupState :=
  { delta_a_share := flattenSec inputs_a,
    delta_b_share := flattenSec inputs_b,
    Delta_y_share := bvXor rand.flatten
      (bvXor (bvXor (bvAnd (flattenSec inputs_a) (flattenSec inputs_b)) ot_sender_out)
        ot_receiver_out) }

/-- Share broadcast by `BooleanBEAVYANDGate::evaluate_online`: the setup share
updated with `Δ_a & δ_b` and `Δ_b & δ_a`, and — only for the party with
`is_my_job` — additionally with `Δ_a & Δ_b`. -/
def BooleanBEAVYANDGate.onlineShare (is_my_job : Bool)
    (inputs_a inputs_b : List BooleanBEAVYWire) (st : ANDSetupState) : BV :=
  if is_my_job then
    bvXor (bvXor (bvXor st.Delta_y_share (bvAnd (flattenPub inputs_a) st.delta_b_share))
        (bvAnd (flattenPub inputs_b) st.delta_a_share))
      (bvAnd (flattenPub inputs_a) (flattenPub inputs_b))
  else
    bvXor (bvXor st.Delta_y_share (bvAnd (flattenPub inputs_a) st.delta_b_share))
      (bvAnd (flattenPub inputs_b) st.delta_a_share)

/-- Messages sent by `BooleanBEAVYANDGate::evaluate_online`: the single
broadcast of this party's updated `Delta_y_share`. -/
def BooleanBEAVYANDGate.onlineMsgs (gate_id : Nat) (is_my_job : Bool)
    (inputs_a inputs_b : List BooleanBEAVYWire) (st : ANDSetupState) : List Msg :=
  [Msg.broadcastBits gate_id (BooleanBEAVYANDGate.onlineShare is_my_job inputs_a inputs_b st)]

/-- Output wires of `BooleanBEAVYANDGate` after `evaluate_online`: the
broadcast share XORed with the peer's received share, de-flattened into the
per-wire public shares. -/
def BooleanBEAVYANDGate.onlineWires (num_simd : Nat) (is_my_job : Bool)
    (inputs_a inputs_b : List BooleanBEAVYWire) (st : ANDSetupState) (peer_share : BV)
    (outs : List BooleanBEAVYWire) : List BooleanBEAVYWire :=
  outs.mapIdx (fun wire_i w =>
    { w with
      public_share := bvSubset
        (bvXor (BooleanBEAVYANDGate.onlineShare is_my_job inputs_a inputs_b st) peer_share)
        (wire_i * num_simd) ((wire_i + 1) * num_simd) })

/-- C7: XOR is free — `BooleanBEAVYXORGate` sends no message and makes no
registration in either phase, and each output wire is the componentwise XOR of
the two input wires' secret shares (setup) and public shares (online). -/
theorem claim_C7_xor_is_free (inputs_a inputs_b : List BooleanBEAVYWire) :
    BooleanBEAVYXORGate.setupMessages = [] ∧
    BooleanBEAVYXORGate.onlineMessages = [] ∧
    BooleanBEAVYXORGate.registrations = [] ∧
    ∀ i, i < (BooleanBEAVYXORGate.evaluate inputs_a inputs_b).length →
      ((BooleanBEAVYXORGate.evaluate inputs_a inputs_b).getD i default).secret_share =
          bvXor (inputs_a.getD i default).secret_share
            (inputs_b.getD i default).secret_share ∧
        ((BooleanBEAVYXORGate.evaluate inputs_a inputs_b).getD i default).public_share =
          bvXor (inputs_a.getD i default).public_share
            (inputs_b.getD i default).public_share := by
  refine ⟨rfl, rfl, rfl, fun i hi => ?_⟩
  have ha : i < inputs_a.length := by
    simpa [BooleanBEAVYXORGate.evaluate] using Nat.lt_of_lt_of_le hi (by
      simp [BooleanBEAVYXORGate.evaluate])
  have hb : i < inputs_b.length := by
    simpa [BooleanBEAVYXORGate.evaluate] using Nat.lt_of_lt_of_le hi (by
      simp [BooleanBEAVYXORGate.evaluate])
  rw [List.getD_eq_getElem _ _ hi, List.getD_eq_getElem _ _ ha, List.getD_eq_getElem _ _ hb]
  unfold BooleanBEAVYXORGate.evaluate at hi ⊢
  exact ⟨by rw [List.getElem_zipWith], by rw [List.getElem_zipWith]⟩

/-- Witness for C7 at a concrete instance: two one-wire inputs with two SIMD
lanes each. -/
theorem claim_C7_xor_is_free_witness :
    (0 : Nat) < (BooleanBEAVYXORGate.evaluate
        [{ num_simd := 2, secret_share := [true, false], public_share := [false, false] }]
        [{ num_simd := 2, secret_share := [true, true], public_share := [false, true] }]).length ∧
      ((BooleanBEAVYXORGate.evaluate
        [{ num_simd := 2, secret_share := [true, false], public_share := [false, false] }]
        [{ num_simd := 2, secret_share := [true, true], public_share := [false, true] }]).getD
          0 default).secret_share = [false, true] := by
  have h := claim_C7_xor_is_free
    [{ num_simd := 2, secret_share := [true, false], public_share := [false, false] }]
    [{ num_simd := 2, secret_share := [true, true], public_share := [false, true] }]
  refine ⟨by decide, ?_⟩
  rw [(h.2.2.2 0 (by decide)).1]
  decide

theorem bvNot_bvNot (a : BV) : bvNot (bvNot a) = a := by
  have h : (not ∘ not) = id := funext fun x => by cases x <;> rfl
  simp [bvNot, h]

theorem bvXor_bvNot_bvNot (a b : BV) : bvXor (bvNot a) (bvNot b) = bvXor a b := by
  induction a generalizing b with
  | nil => simp [bvNot, bvXor]
  | cons x xs ih =>
      cases b with
      | nil => simp [bvNot, bvXor]
      | cons y ys =>
          simp only [bvNot, List.map_cons, bvXor, List.zipWith_cons_cons] at ih ⊢
          rw [show Bool.xor (!x) (!y) = Bool.xor x y by cases x <;> cases y <;> rfl]
          exact congrArg _ (ih ys)

/-- Modelled from the spec: the BMR wire and the semantics of `BMRINVGate`.
The repository holds only the declaration of `BMRINVGate` (`bmr_gate.h`); its
implementation is missing from the sources, so the wire data and the INV
semantics follow the spec: a BMR wire carries per-party keys for values 0 and
1, per-party local permutation shares λ, and the revealed public value
`x ⊕ λ`; INV swaps the key roles (`k0 ↔ k1`) on the output, equivalently
complementing the revealed public permutation bit, and leaves the λ shares
unchanged. -/
structure BMRWire where
  keys_0 : List Nat
  keys_1 : List Nat
  lambda_shares : BV
  public_value : Bool
deriving DecidableEq

/-- The wire's permutation bit λ: the XOR of the per-party λ shares. -/
def BMRWire.lambdaBit (w : BMRWire) : Bool :=
  w.lambda_shares.foldl Bool.xor false

/-- The clear value carried by a revealed BMR wire: `public_value ⊕ λ`. -/
def BMRWire.clearValue (w : BMRWire) : Bool :=
  Bool.xor w.public_value w.lambdaBit

/-- Modelled from the spec: `BMRINVGate` evaluation on a revealed wire — swap
the key roles on the output and complement the revealed public permutation
bit. -/
def BMRINVGate.evaluate (w : BMRWire) : BMRWire :=
  { keys_0 := w.keys_1, keys_1 := w.keys_0, lambda_shares := w.lambda_shares,
    public_value := !w.public_value }

/-- C8: INV is an involution.  For BEAVY, chaining two `BooleanBEAVYINVGate`s
(with either party designated by `is_my_job` at each gate, the two parties
holding complementary flags) reproduces the jointly reconstructed clear value
of every original wire.  For BMR, applying `BMRINVGate` twice reproduces the
wire exactly (hence its clear value). -/
theorem claim_C8_inv_involution (in0 in1 : List BooleanBEAVYWire) (j1 j2 : Bool)
    (w : BMRWire) (hlen : in0.length = in1.length) :
    (∀ i, i < in0.length →
      recon2
          ((BooleanBEAVYINVGate.evaluate j2
            (BooleanBEAVYINVGate.evaluate j1 in0)).getD i default)
          ((BooleanBEAVYINVGate.evaluate (!j2)
            (BooleanBEAVYINVGate.evaluate (!j1) in1)).getD i default) =
        recon2 (in0.getD i default) (in1.getD i default)) ∧
      BMRINVGate.evaluate (BMRINVGate.evaluate w) = w ∧
      (BMRINVGate.evaluate (BMRINVGate.evaluate w)).clearValue = w.clearValue := by
  refine ⟨fun i hi => ?_, ?_, ?_⟩
  · have hi1 : i < in1.length := hlen ▸ hi
    cases j1 <;> cases j2 <;>
      simp [BooleanBEAVYINVGate.evaluate, List.getD_eq_getElem, hi, hi1, recon2,
        bvNot_bvNot, bvXor_bvNot_bvNot]
  · simp [BMRINVGate.evaluate]
  · simp [BMRINVGate.evaluate]

/-- Witness for C8 at a concrete instance: one wire per party, the first gate
is party 0's job and the second gate party 1's. -/
theorem claim_C8_inv_involution_witness :
    recon2
        ((BooleanBEAVYINVGate.evaluate false
          (BooleanBEAVYINVGate.evaluate true
            [{ num_simd := 2, secret_share := [true, false],
               public_share := [true, true] }])).getD 0 default)
        ((BooleanBEAVYINVGate.evaluate (!false)
          (BooleanBEAVYINVGate.evaluate (!true)
            [{ num_simd := 2, secret_share := [false, false],
               public_share := [true, true] }])).getD 0 default) =
      recon2
        ({ num_simd := 2, secret_share := [true, false],
           public_share := [true, true] } : BooleanBEAVYWire)
        ({ num_simd := 2, secret_share := [false, false],
           public_share := [true, true] } : BooleanBEAVYWire) := by
  have h := (claim_C8_inv_involution
    [{ num_simd := 2, secret_share := [true, false], public_share := [true, true] }]
    [{ num_simd := 2, secret_share := [false, false], public_share := [true, true] }]
    true false ⟨[], [], [], false⟩ (by decide)).1 0 (by decide)
  simpa using h

theorem senderOnlineLoop_error_iff (ns : Nat) (wires : List BooleanBEAVYWire)
    (inputs : List BV) (hlen : inputs.length = wires.length) :
    (BooleanBEAVYInputGateSender.onlineLoop ns wires inputs).2.isSome ↔
      ∃ i < inputs.length, (inputs.getD i []).length ≠ ns := by
  induction wires generalizing inputs with
  | nil =>
      cases inputs with
      | nil => simp [BooleanBEAVYInputGateSender.onlineLoop]
      | cons x xs => simp at hlen
  | cons w ws ih =>
      cases inputs with
      | nil => simp at hlen
      | cons x xs =>
          simp only [List.length_cons] at hlen
          by_cases hx : x.length = ns
          · rw [show BooleanBEAVYInputGateSender.onlineLoop ns (w :: ws) (x :: xs) =
                ({ w with public_share := bvXor w.public_share x } ::
                    (BooleanBEAVYInputGateSender.onlineLoop ns ws xs).1,
                  (BooleanBEAVYInputGateSender.onlineLoop ns ws xs).2) by
              simp [BooleanBEAVYInputGateSender.onlineLoop, hx]]
            rw [show ({ w with public_share := bvXor w.public_share x } ::
                  (BooleanBEAVYInputGateSender.onlineLoop ns ws xs).1,
                (BooleanBEAVYInputGateSender.onlineLoop ns ws xs).2).2 =
                (BooleanBEAVYInputGateSender.onlineLoop ns ws xs).2 from rfl]
            rw [ih xs (by omega)]
            constructor
            · rintro ⟨i, hi, hbad⟩
              exact ⟨i + 1, by simpa using Nat.succ_lt_succ hi, by simpa using hbad⟩
            · rintro ⟨i, hi, hbad⟩
              cases i with
              | zero => exact absurd hx (by simpa using hbad)
              | succ i =>
                  exact ⟨i, by simpa using Nat.lt_of_succ_lt_succ hi, by simpa using hbad⟩
          · rw [show BooleanBEAVYInputGateSender.onlineLoop ns (w :: ws) (x :: xs) =
                ([], some "size of input bit vector != num_simd_") by
              simp [BooleanBEAVYInputGateSender.onlineLoop, hx]]
            simp only [Option.isSome_some, true_iff]
            exact ⟨0, by simp, by simpa using hx⟩

theorem senderOnlineLoop_first_error (ns : Nat) (wires : List BooleanBEAVYWire)
    (inputs : List BV) (hlen : inputs.length = wires.length) (i : Nat)
    (hi : i < inputs.length) (hbad : (inputs.getD i []).length ≠ ns)
    (hok : ∀ j, j < i → (inputs.getD j []).length = ns) :
    BooleanBEAVYInputGateSender.onlineLoop ns wires inputs =
      (List.zipWith (fun w x => { w with public_share := bvXor w.public_share x })
        (wires.take i) (inputs.take i), some "size of input bit vector != num_simd_") := by
  induction i generalizing wires inputs with
  | zero =>
      cases inputs with
      | nil => simp at hi
      | cons x xs =>
          cases wires with
          | nil => simp at hlen
          | cons w ws =>
              have hx : x.length ≠ ns := by simpa using hbad
              simp [BooleanBEAVYInputGateSender.onlineLoop, hx]
  | succ i ih =>
      cases inputs with
      | nil => simp at hi
      | cons x xs =>
          cases wires with
          | nil => simp at hlen
          | cons w ws =>
              have hx : x.length = ns := by simpa using hok 0 (Nat.succ_pos i)
              have hrec := ih ws xs (by simp at hlen; omega)
                (by simpa using Nat.lt_of_succ_lt_succ hi) (by simpa using hbad)
                (fun j hj => by simpa using hok (j + 1) (Nat.succ_lt_succ hj))
              rw [show BooleanBEAVYInputGateSender.onlineLoop ns (w :: ws) (x :: xs) =
                  ({ w with public_share := bvXor w.public_share x } ::
                      (BooleanBEAVYInputGateSender.onlineLoop ns ws xs).1,
                    (BooleanBEAVYInputGateSender.onlineLoop ns ws xs).2) by
                simp [BooleanBEAVYInputGateSender.onlineLoop, hx]]
              rw [hrec]
              simp [List.take_succ_cons]

/-- C10: `BooleanBEAVYInputGateSender::evaluate_online` throws a runtime error
iff some provided input bit vector's length differs from `num_simd`; when it
throws at the first offending wire index `i`, the output wires with indices
below `i` have already been updated and marked online-ready and no
public-share broadcast has been sent. -/
theorem claim_C10_input_size_check (gate_id ns : Nat) (wires : List BooleanBEAVYWire)
    (inputs : List BV) (hlen : inputs.length = wires.length) :
    ((BooleanBEAVYInputGateSender.evaluate_online gate_id ns wires inputs).error.isSome ↔
      ∃ i < inputs.length, (inputs.getD i []).length ≠ ns) ∧
    ∀ i, i < inputs.length → (inputs.getD i []).length ≠ ns →
      (∀ j, j < i → (inputs.getD j []).length = ns) →
      BooleanBEAVYInputGateSender.evaluate_online gate_id ns wires inputs =
        { readyWires := List.zipWith
            (fun w x => { w with public_share := bvXor w.public_share x })
            (wires.take i) (inputs.take i),
          msgs := [],
          error := some "size of input bit vector != num_simd_" } := by
  constructor
  · rcases hout : BooleanBEAVYInputGateSender.onlineLoop ns wires inputs with ⟨ready, e⟩
    have hiff := senderOnlineLoop_error_iff ns wires inputs hlen
    rw [hout] at hiff
    cases e with
    | none =>
        simp only [Option.isSome_none, Bool.false_eq_true, false_iff] at hiff
        push_neg at hiff
        simp only [BooleanBEAVYInputGateSender.evaluate_online, hout, Option.isSome_none,
          Bool.false_eq_true, false_iff, not_exists, not_and, not_not]
        intro x hx
        simpa using hiff x hx
    | some err =>
        simp only [Option.isSome_some, true_iff] at hiff
        obtain ⟨i, hi, hbad⟩ := hiff
        simp only [BooleanBEAVYInputGateSender.evaluate_online, hout, Option.isSome_some,
          true_iff]
        exact ⟨i, hi, by simpa using hbad⟩
  · intro i hi hbad hok
    have hrec := senderOnlineLoop_first_error ns wires inputs hlen i hi hbad hok
    simp [BooleanBEAVYInputGateSender.evaluate_online, hrec]

/-- Witness for C10 at a concrete instance: two wires with two lanes each; the
second input vector has the wrong size, so the first wire is already
online-ready, no broadcast happens, and the size error is raised. -/
theorem claim_C10_input_size_check_witness :
    BooleanBEAVYInputGateSender.evaluate_online 7 2
        [{ num_simd := 2, secret_share := [true, false], public_share := [true, true] },
         { num_simd := 2, secret_share := [false, true], public_share := [false, true] }]
        [[true, true], [false]] =
      { readyWires :=
          [{ num_simd := 2, secret_share := [true, false], public_share := [false, false] }],
        msgs := [],
        error := some "size of input bit vector != num_simd_" } := by
  have h := (claim_C10_input_size_check 7 2
    [{ num_simd := 2, secret_share := [true, false], public_share := [true, true] },
     { num_simd := 2, secret_share := [false, true], public_share := [false, true] }]
    [[true, true], [false]] (by decide)).2 1 (by decide) (by decide)
    (fun j hj => by have hj0 : j = 0 := by omega
                    subst hj0; decide)
  rw [h]
  decide

/-! Event traces of the gate evaluation bodies, in program order, used to
check the wait-before-read discipline of the spec. -/

/-- Reference to a wire used by a gate: the binary gates' input vectors `a`
and `b`, the unary/output gates' input vector, or the gate's own outputs. -/
inductive WireRef where
  | inA (i : Nat)
  | inB (i : Nat)
  | inp (i : Nat)
  | out (i : Nat)
deriving DecidableEq

/-- An input wire (a wire the gate consumes rather than produces). -/
def WireRef.isInput : WireRef → Bool
  | .out _ => false
  | _ => true

/-- An observable wire or channel event of a gate evaluation body. -/
inductive Event where
  | waitSetup (w : WireRef)
  | waitOnline (w : WireRef)
  | readSecretShare (w : WireRef)
  | readPublicShare (w : WireRef)
  | setSetupReady (w : WireRef)
  | setOnlineReady (w : WireRef)
  | broadcastBitsMessage
  | sendBitsMessage
deriving DecidableEq

/-- Auxiliary walk for the wait-before-read check, carrying the events seen
so far. -/
def waitBeforeReadAux (seen : List Event) : List Event → Bool
  | [] => true
  | e :: rest =>
      (match e with
       | .readSecretShare w => !w.isInput || seen.contains (.waitSetup w)
       | .readPublicShare w => !w.isInput || seen.contains (.waitOnline w)
       | _ => true) &&
      waitBeforeReadAux (e :: seen) rest

/-- Wait-before-read discipline on a trace: every read of an input wire's
secret share is preceded by a `wait_setup` on that wire, and every read of an
input wire's public share by a `wait_online` on that wire. -/
def waitBeforeRead (tr : List Event) : Bool := waitBeforeReadAux [] tr

/-- Trace of `BooleanBEAVYXORGate::evaluate_setup` over `n` wires: wait for
both inputs' setup, read their secret shares, mark the output setup-ready. -/
def BooleanBEAVYXORGate.setupTrace (n : Nat) : List Event :=
  ((List.range n).map (fun i =>
    [Event.waitSetup (.inA i), Event.waitSetup (.inB i),
     Event.readSecretShare (.inA i), Event.readSecretShare (.inB i),
     Event.setSetupReady (.out i)])).flatten

/-- Trace of `BooleanBEAVYXORGate::evaluate_online` over `n` wires. -/
def BooleanBEAVYXORGate.onlineTrace (n : Nat) : List Event :=
  ((List.range n).map (fun i =>
    [Event.waitOnline (.inA i), Event.waitOnline (.inB i),
     Event.readPublicShare (.inA i), Event.readPublicShare (.inB i),
     Event.setOnlineReady (.out i)])).flatten

/-- Trace of `BooleanBEAVYINVGate::evaluate_setup` over `n` wires for the
`is_my_job` party (the other party returns immediately). -/
def BooleanBEAVYINVGate.setupTrace (n : Nat) : List Event :=
  ((List.range n).map (fun i =>
    [Event.waitSetup (.inp i), Event.readSecretShare (.inp i),
     Event.setSetupReady (.out i)])).flatten

/-- Trace of `BooleanBEAVYINVGate::evaluate_online` over `n` wires for the
`is_my_job` party. -/
def BooleanBEAVYINVGate.onlineTrace (n : Nat) : List Event :=
  ((List.range n).map (fun i =>
    [Event.waitOnline (.inp i), Event.readPublicShare (.inp i),
     Event.setOnlineReady (.out i)])).flatten

/-- Trace of `BooleanBEAVYANDGate::evaluate_setup` over `n` wires: first all
outputs get fresh shares and are marked setup-ready, then the flattening loop
waits for each input pair's setup and reads the secret shares (the gate's own
output share is also appended). -/
def BooleanBEAVYANDGate.setupTrace (n : Nat) : List Event :=
  (List.range n).map (fun i => Event.setSetupReady (.out i)) ++
  ((List.range n).map (fun i =>
    [Event.waitSetup (.inA i), Event.waitSetup (.inB i),
     Event.readSecretShare (.inA i), Event.readSecretShare (.inB i),
     Event.readSecretShare (.out i)])).flatten

/-- Trace of `BooleanBEAVYANDGate::evaluate_online` over `n` wires: the
flattening loop reads both inputs' public shares directly (there is no
`wait_online` call in the body), then the share is broadcast and the outputs
are marked online-ready. -/
def BooleanBEAVYANDGate.onlineTrace (n : Nat) : List Event :=
  ((List.range n).map (fun i =>
    [Event.readPublicShare (.inA i), Event.readPublicShare (.inB i)])).flatten ++
  [Event.broadcastBitsMessage] ++
  (List.range n).map (fun i => Event.setOnlineReady (.out i))

/-- Trace of `BooleanBEAVYOutputGate::evaluate_online` over `n` wires: the
input wires' secret shares are read directly (there is no `wait_setup` call in
the body); `sends` records the send/broadcast to the owner, and when this
party receives the output it also reads the input wires' public shares
(again without waiting). -/
def BooleanBEAVYOutputGate.onlineTrace (n : Nat) (sends receives : Bool) : List Event :=
  (List.range n).map (fun i => Event.readSecretShare (.inp i)) ++
  (if sends then [Event.sendBitsMessage] else []) ++
  (if receives then (List.range n).map (fun i => Event.readPublicShare (.inp i)) else [])

/-- C4 (refuted — the code violates the claimed discipline):
`BooleanBEAVYANDGate::evaluate_online` reads the input wires' public shares
with no preceding `wait_online`, and `BooleanBEAVYOutputGate::evaluate_online`
reads the input wires' secret shares with no preceding `wait_setup`, while the
XOR, INV and AND-setup bodies do wait before reading. -/
theorem claim_C4_wait_before_read_violated :
    waitBeforeRead (BooleanBEAVYANDGate.onlineTrace 1) = false ∧
    waitBeforeRead (BooleanBEAVYOutputGate.onlineTrace 1 false true) = false ∧
    waitBeforeRead (BooleanBEAVYXORGate.setupTrace 1) = true ∧
    waitBeforeRead (BooleanBEAVYXORGate.onlineTrace 1) = true ∧
    waitBeforeRead (BooleanBEAVYINVGate.setupTrace 1) = true ∧
    waitBeforeRead (BooleanBEAVYINVGate.onlineTrace 1) = true ∧
    waitBeforeRead (BooleanBEAVYANDGate.setupTrace 1) = true := by
  decide

theorem bvXor_comm (a b : BV) : bvXor a b = bvXor b a := by
  induction a generalizing b with
  | nil => cases b <;> simp [bvXor]
  | cons x xs ih =>
      cases b with
      | nil => simp [bvXor]
      | cons y ys =>
          simp only [bvXor, List.zipWith_cons_cons] at ih ⊢
          rw [show Bool.xor x y = Bool.xor y x by cases x <;> cases y <;> rfl, ih ys]

theorem bvXor_flatten (p q : List BV) (hlen : p.length = q.length)
    (hbl : ∀ i, i < p.length → (p.getD i []).length = (q.getD i []).length) :
    bvXor p.flatten q.flatten = (List.zipWith bvXor p q).flatten := by
  induction p generalizing q with
  | nil =>
      cases q with
      | nil => simp [bvXor]
      | cons y ys => simp at hlen
  | cons x xs ih =>
      cases q with
      | nil => simp at hlen
      | cons y ys =>
          have hx : x.length = y.length := by simpa using hbl 0 (by simp)
          simp only [List.flatten_cons, List.zipWith_cons_cons]
          rw [show bvXor (x ++ xs.flatten) (y ++ ys.flatten) =
              bvXor x y ++ bvXor xs.flatten ys.flatten from
            List.zipWith_append _ _ _ _ _ hx]
          rw [ih ys (by simpa using hlen)
            (fun i hi => by simpa using hbl (i + 1) (by simpa using Nat.succ_lt_succ hi))]

theorem distribute_shifted (pre : BV) (blocks : List BV) (inputs : List BooleanBEAVYWire)
    (hlen : blocks.length = inputs.length)
    (hbl : ∀ i, i < inputs.length →
      (blocks.getD i []).length = (inputs.getD i default).num_simd) :
    BooleanBEAVYOutputGate.distribute (pre ++ blocks.flatten) inputs pre.length =
      List.zipWith (fun b w => bvXor b w.public_share) blocks inputs := by
  induction inputs generalizing pre blocks with
  | nil =>
      cases blocks with
      | nil => simp [BooleanBEAVYOutputGate.distribute]
      | cons b bs => simp at hlen
  | cons w ws ih =>
      cases blocks with
      | nil => simp at hlen
      | cons b bs =>
          have hb : b.length = w.num_simd := by simpa using hbl 0 (by simp)
          simp only [BooleanBEAVYOutputGate.distribute, List.zipWith_cons_cons]
          have hsub : bvSubset (pre ++ (b :: bs).flatten) pre.length
              (pre.length + w.num_simd) = b := by
            simp only [bvSubset, List.flatten_cons]
            rw [show pre.length + w.num_simd - pre.length = w.num_simd by omega]
            rw [show ((pre ++ (b ++ bs.flatten)).drop pre.length) = b ++ bs.flatten from
              List.drop_left pre _]
            rw [← hb]
            exact List.take_left b _
          have htail := ih (pre ++ b) bs (by simpa using hlen)
            (fun i hi => by
              simpa using hbl (i + 1) (by simpa using Nat.succ_lt_succ hi))
          rw [show (pre ++ b).length = pre.length + w.num_simd by simp [hb]] at htail
          rw [show (pre ++ b) ++ bs.flatten = pre ++ (b :: bs).flatten by simp] at htail
          rw [hsub, htail]

theorem distribute_flatten (blocks : List BV) (inputs : List BooleanBEAVYWire)
    (hlen : blocks.length = inputs.length)
    (hbl : ∀ i, i < inputs.length →
      (blocks.getD i []).length = (inputs.getD i default).num_simd) :
    BooleanBEAVYOutputGate.distribute blocks.flatten inputs 0 =
      List.zipWith (fun b w => bvXor b w.public_share) blocks inputs := by
  have h := distribute_shifted [] blocks inputs hlen hbl
  simpa using h

theorem zipWith_secret_recon (mine peer : List BooleanBEAVYWire) :
    List.zipWith (fun b w => bvXor b w.public_share)
      (List.zipWith bvXor (mine.map (·.secret_share)) (peer.map (·.secret_share))) mine =
      List.zipWith recon2 mine peer := by
  induction mine generalizing peer with
  | nil => simp
  | cons wm ms ih =>
      cases peer with
      | nil => simp
      | cons wp ps =>
          simp only [List.map_cons, List.zipWith_cons_cons]
          rw [ih ps, recon2, bvXor_comm]

/-- C5 counterexample: for an output addressed to party 1 only, party 0's
`evaluate_online` is not a no-op — it sends party 0's secret share to
party 1 — so the claim's "its gate is a no-op online" is false as stated. -/
theorem claim_C5_counterexample :
    BooleanBEAVYOutputGate.onlineMsgs 0 5 1
        [{ num_simd := 1, secret_share := [true], public_share := [false] }] =
      [Msg.sendBits 1 5 [true]] ∧
      BooleanBEAVYOutputGate.onlineMsgs 0 5 1
        [{ num_simd := 1, secret_share := [true], public_share := [false] }] ≠ [] := by
  constructor
  · decide
  · decide

/-- C5 (amended): for a `BooleanBEAVYOutputGate` addressed to single party
`r`, the non-recipient gets no future — `get_output_future` throws
"not this parties output" — registers nothing, resolves no output value
online, and online only sends its concatenated secret share to the recipient;
the recipient's future resolves to the correct clear values
`Δ ⊕ δ_recipient ⊕ δ_peer` of the input wires. -/
theorem claim_C5_output_ownership (gate_id r o : Nat) (hr : r = 0 ∨ r = 1)
    (ho : o = 1 - r) (mine peer : List BooleanBEAVYWire) (other : Nat → BV)
    (hlen : mine.length = peer.length)
    (hsec : ∀ i, i < mine.length →
      (peer.getD i default).secret_share.length =
        (mine.getD i default).secret_share.length)
    (hns : ∀ i, i < mine.length →
      (mine.getD i default).secret_share.length = (mine.getD i default).num_simd) :
    BooleanBEAVYOutputGate.get_output_future o r =
        Except.error "not this parties output" ∧
      BooleanBEAVYOutputGate.registrations o 2 r gate_id peer = [] ∧
      BooleanBEAVYOutputGate.onlineMsgs o gate_id r peer =
        [Msg.sendBits r gate_id (flattenSec peer)] ∧
      BooleanBEAVYOutputGate.onlineValue o 2 r peer other = none ∧
      BooleanBEAVYOutputGate.get_output_future r r = Except.ok () ∧
      BooleanBEAVYOutputGate.onlineValue r 2 r mine (fun _ => flattenSec peer) =
        some (List.zipWith recon2 mine peer) := by
  have hAll0 : (0 : Nat) ≠ ALL_PARTIES := by simp [ALL_PARTIES]
  have hAll1 : (1 : Nat) ≠ ALL_PARTIES := by simp [ALL_PARTIES]
  have hor : r ≠ o := by omega
  have hvalue : BooleanBEAVYOutputGate.distribute
      (bvXor (flattenSec mine) (flattenSec peer)) mine 0 =
      List.zipWith recon2 mine peer := by
    rw [show flattenSec mine = (mine.map (·.secret_share)).flatten from rfl,
      show flattenSec peer = (peer.map (·.secret_share)).flatten from rfl]
    rw [bvXor_flatten _ _ (by simp [hlen]) (fun i hi => by
      have him : i < mine.length := by simpa using hi
      have hip : i < peer.length := by omega
      rw [List.getD_eq_getElem _ _ (by simpa using him),
        List.getD_eq_getElem _ _ (by simpa using hip)]
      simp only [List.getElem_map]
      have h1 := hsec i him
      rw [List.getD_eq_getElem _ _ him, List.getD_eq_getElem _ _ hip] at h1
      omega)]
    rw [distribute_flatten _ _ (by simp [List.length_zipWith, hlen]) (fun i hi => ?_),
      zipWith_secret_recon]
    have hip : i < peer.length := by omega
    have h1 := hsec i hi
    have h2 := hns i hi
    rw [List.getD_eq_getElem _ _ hip, List.getD_eq_getElem _ _ hi] at h1
    rw [List.getD_eq_getElem _ _ hi] at h2
    rw [List.getD_eq_getElem _ _ hi]
    rw [List.getD_eq_getElem _ _ (show i <
        (List.zipWith bvXor (mine.map (·.secret_share))
          (peer.map (·.secret_share))).length by
      simp only [List.length_zipWith, List.length_map]
      omega)]
    simp only [List.getElem_zipWith, List.getElem_map, length_bvXor]
    omega
  rcases hr with rfl | rfl
  · subst ho
    refine ⟨by simp [BooleanBEAVYOutputGate.get_output_future, hAll0],
      by simp [BooleanBEAVYOutputGate.registrations, hAll0],
      by simp [BooleanBEAVYOutputGate.onlineMsgs, hAll0],
      by simp [BooleanBEAVYOutputGate.onlineValue, hAll0],
      by simp [BooleanBEAVYOutputGate.get_output_future],
      ?_⟩
    simp only [BooleanBEAVYOutputGate.onlineValue, hAll0, or_false, or_true, if_true,
      if_pos (Or.inr rfl)]
    rw [show (List.range 2).filter (· ≠ 0) = [1] by decide]
    simp only [List.foldl_cons, List.foldl_nil]
    rw [hvalue]
  · subst ho
    refine ⟨by simp [BooleanBEAVYOutputGate.get_output_future, hAll1],
      by simp [BooleanBEAVYOutputGate.registrations, hAll1],
      by simp [BooleanBEAVYOutputGate.onlineMsgs, hAll1],
      by simp [BooleanBEAVYOutputGate.onlineValue, hAll1],
      by simp [BooleanBEAVYOutputGate.get_output_future],
      ?_⟩
    simp only [BooleanBEAVYOutputGate.onlineValue, hAll1, or_false, or_true, if_true,
      if_pos (Or.inr rfl)]
    rw [show (List.range 2).filter (· ≠ 1) = [0] by decide]
    simp only [List.foldl_cons, List.foldl_nil]
    rw [hvalue]

/-- Witness for the amended C5 at a concrete instance: output addressed to
party 1, one wire with one lane; party 0 sends `[true]`, gets no future, and
party 1 recovers the clear value `[true]`. -/
theorem claim_C5_output_ownership_witness :
    BooleanBEAVYOutputGate.get_output_future 0 1 =
        Except.error "not this parties output" ∧
      BooleanBEAVYOutputGate.onlineValue 1 2 1
          [{ num_simd := 1, secret_share := [false], public_share := [true] }]
          (fun _ => flattenSec
            [{ num_simd := 1, secret_share := [false], public_share := [true] }]) =
        some [[true]] := by
  have h := claim_C5_output_ownership 9 1 0 (Or.inr rfl) rfl
    [{ num_simd := 1, secret_share := [false], public_share := [true] }]
    [{ num_simd := 1, secret_share := [false], public_share := [true] }]
    (fun _ => []) rfl
    (fun i hi => by have hi0 : i = 0 := by simpa using hi
                    subst hi0; decide)
    (fun i hi => by have hi0 : i = 0 := by simpa using hi
                    subst hi0; decide)
  refine ⟨h.1, ?_⟩
  rw [h.2.2.2.2.2]
  decide

theorem count_bits_uniform (ws : List BooleanBEAVYWire) (ns : Nat)
    (h : ∀ w ∈ ws, w.num_simd = ns) : count_bits ws = ws.length * ns := by
  induction ws with
  | nil => simp [count_bits]
  | cons w rest ih =>
      simp only [count_bits, List.map_cons, List.sum_cons, List.length_cons] at ih ⊢
      rw [h w (by simp), ih (fun c hc => h c (by simp [hc]))]
      ring

theorem length_flattenSec (ws : List BooleanBEAVYWire) (ns : Nat)
    (h : ∀ w ∈ ws, w.secret_share.length = ns) :
    (flattenSec ws).length = ws.length * ns := by
  unfold flattenSec
  rw [length_flatten_uniform _ ns (fun b hb => by
    obtain ⟨w, hw, rfl⟩ := List.mem_map.1 hb
    exact h w hw)]
  simp

theorem length_flattenPub (ws : List BooleanBEAVYWire) (ns : Nat)
    (h : ∀ w ∈ ws, w.public_share.length = ns) :
    (flattenPub ws).length = ws.length * ns := by
  unfold flattenPub
  rw [length_flatten_uniform _ ns (fun b hb => by
    obtain ⟨w, hw, rfl⟩ := List.mem_map.1 hb
    exact h w hw)]
  simp

theorem length_and_setup_Delta_y (a b : List BooleanBEAVYWire) (rand : List BV)
    (s_out r_out : BV) (n ns : Nat) (ha : a.length = n) (hb : b.length = n)
    (hsa : ∀ w ∈ a, w.secret_share.length = ns)
    (hsb : ∀ w ∈ b, w.secret_share.length = ns)
    (hrand1 : rand.length = n) (hrand2 : ∀ x ∈ rand, x.length = ns)
    (hs : s_out.length = n * ns) (hr : r_out.length = n * ns) :
    (BooleanBEAVYANDGate.evaluate_setup a b rand s_out r_out).Delta_y_share.length =
      n * ns := by
  have h1 : (flattenSec a).length = n * ns := by rw [length_flattenSec a ns hsa, ha]
  have h2 : (flattenSec b).length = n * ns := by rw [length_flattenSec b ns hsb, hb]
  have h3 : rand.flatten.length = n * ns := by
    rw [length_flatten_uniform rand ns hrand2, hrand1]
  simp only [BooleanBEAVYANDGate.evaluate_setup, length_bvXor, length_bvAnd, h1, h2, h3,
    hs, hr]
  omega

theorem length_and_onlineShare (is_my_job : Bool) (a b : List BooleanBEAVYWire)
    (rand : List BV) (s_out r_out : BV) (n ns : Nat) (ha : a.length = n)
    (hb : b.length = n)
    (hsa : ∀ w ∈ a, w.secret_share.length = ns)
    (hsb : ∀ w ∈ b, w.secret_share.length = ns)
    (hpa : ∀ w ∈ a, w.public_share.length = ns)
    (hpb : ∀ w ∈ b, w.public_share.length = ns)
    (hrand1 : rand.length = n) (hrand2 : ∀ x ∈ rand, x.length = ns)
    (hs : s_out.length = n * ns) (hr : r_out.length = n * ns) :
    (BooleanBEAVYANDGate.onlineShare is_my_job a b
      (BooleanBEAVYANDGate.evaluate_setup a b rand s_out r_out)).length = n * ns := by
  have h1 : (flattenSec a).length = n * ns := by rw [length_flattenSec a ns hsa, ha]
  have h2 : (flattenSec b).length = n * ns := by rw [length_flattenSec b ns hsb, hb]
  have h3 : (flattenPub a).length = n * ns := by rw [length_flattenPub a ns hpa, ha]
  have h4 : (flattenPub b).length = n * ns := by rw [length_flattenPub b ns hpb, hb]
  have h0 : rand.flatten.length = n * ns := by
    rw [length_flatten_uniform rand ns hrand2, hrand1]
  cases is_my_job <;>
    simp only [BooleanBEAVYANDGate.onlineShare, BooleanBEAVYANDGate.evaluate_setup,
      length_bvXor, length_bvAnd, h0, h1, h2, h3, h4, hs, hr, if_true, if_false,
      Bool.false_eq_true] <;>
    simp

theorem senderOnlineLoop_ok (ns : Nat) (wires : List BooleanBEAVYWire) (inputs : List BV)
    (hlen : inputs.length = wires.length) (hok : ∀ x ∈ inputs, x.length = ns) :
    BooleanBEAVYInputGateSender.onlineLoop ns wires inputs =
      (List.zipWith (fun w x => { w with public_share := bvXor w.public_share x })
        wires inputs, none) := by
  induction wires generalizing inputs with
  | nil =>
      cases inputs with
      | nil => simp [BooleanBEAVYInputGateSender.onlineLoop]
      | cons x xs => simp at hlen
  | cons w ws ih =>
      cases inputs with
      | nil => simp at hlen
      | cons x xs =>
          have hx : x.length = ns := hok x (by simp)
          rw [show BooleanBEAVYInputGateSender.onlineLoop ns (w :: ws) (x :: xs) =
              ({ w with public_share := bvXor w.public_share x } ::
                  (BooleanBEAVYInputGateSender.onlineLoop ns ws xs).1,
                (BooleanBEAVYInputGateSender.onlineLoop ns ws xs).2) by
            simp [BooleanBEAVYInputGateSender.onlineLoop, hx]]
          rw [ih xs (by simpa using hlen) (fun y hy => hok y (by simp [hy]))]
          simp

/-- C9: message accounting.  The broadcast of `BooleanBEAVYANDGate::
evaluate_online` carries the same gate id and exactly as many bits as the
`register_for_bits_message` made by the peer's AND gate constructor
(`num_wires * num_simd` bits); and the broadcast of
`BooleanBEAVYInputGateSender::evaluate_online` (the concatenated public
shares) carries the same gate id and exactly the `num_wires * num_simd` bits
registered by `BooleanBEAVYInputGateReceiver`'s constructor from the input
owner. -/
theorem claim_C9_message_accounting (peer_id gid gid2 owner n ns : Nat)
    (a b peer_a : List BooleanBEAVYWire) (rand : List BV) (s_out r_out : BV)
    (is_my_job : Bool) (wires : List BooleanBEAVYWire) (inputs : List BV)
    (ha : a.length = n) (hb : b.length = n) (hpeer : peer_a.length = n)
    (hsa : ∀ w ∈ a, w.secret_share.length = ns)
    (hsb : ∀ w ∈ b, w.secret_share.length = ns)
    (hpa : ∀ w ∈ a, w.public_share.length = ns)
    (hpb : ∀ w ∈ b, w.public_share.length = ns)
    (hpeerns : ∀ w ∈ peer_a, w.num_simd = ns)
    (hrand1 : rand.length = n) (hrand2 : ∀ x ∈ rand, x.length = ns)
    (hs : s_out.length = n * ns) (hr : r_out.length = n * ns)
    (hw : wires.length = n) (hpw : ∀ w ∈ wires, w.public_share.length = ns)
    (hin : inputs.length = n) (hxs : ∀ x ∈ inputs, x.length = ns) :
    (∀ m ∈ BooleanBEAVYANDGate.onlineMsgs gid is_my_job a b
        (BooleanBEAVYANDGate.evaluate_setup a b rand s_out r_out),
      m.gateId = (BooleanBEAVYANDGate.registration peer_id gid peer_a).gate_id ∧
        m.numBits = (BooleanBEAVYANDGate.registration peer_id gid peer_a).num_bits) ∧
      (∀ m ∈ (BooleanBEAVYInputGateSender.evaluate_online gid2 ns wires inputs).msgs,
        m.gateId =
            (BooleanBEAVYInputGateReceiver.registration owner gid2 n ns).gate_id ∧
          m.numBits =
            (BooleanBEAVYInputGateReceiver.registration owner gid2 n ns).num_bits) := by
  constructor
  · intro m hm
    simp only [BooleanBEAVYANDGate.onlineMsgs, List.mem_singleton] at hm
    subst hm
    refine ⟨rfl, ?_⟩
    simp only [Msg.numBits, BooleanBEAVYANDGate.registration, count_bits_uniform peer_a
      ns hpeerns, hpeer]
    exact length_and_onlineShare is_my_job a b rand s_out r_out n ns ha hb hsa hsb hpa
      hpb hrand1 hrand2 hs hr
  · intro m hm
    rw [BooleanBEAVYInputGateSender.evaluate_online,
      senderOnlineLoop_ok ns wires inputs (by omega) hxs] at hm
    simp only [List.mem_singleton] at hm
    subst hm
    refine ⟨rfl, ?_⟩
    simp only [Msg.numBits, BooleanBEAVYInputGateReceiver.registration]
    rw [length_flattenPub _ ns (fun w hwm => ?_)]
    · simp only [List.length_zipWith]
      rw [hw, hin, Nat.min_self]
    · obtain ⟨i, hilt, rfl⟩ := List.mem_iff_getElem.1 hwm
      have hiw : i < wires.length := by
        simp only [List.length_zipWith] at hilt
        omega
      have hii : i < inputs.length := by
        simp only [List.length_zipWith] at hilt
        omega
      simp only [List.getElem_zipWith, length_bvXor]
      have hx := hxs inputs[i] (by exact List.getElem_mem hii)
      have hwp := hpw wires[i] (by exact List.getElem_mem hiw)
      omega

/-- Witness for C9 at a concrete instance: one wire, one SIMD lane on both the
AND gate and the input gates; the single broadcast message of the AND gate
carries the registered gate id and bit count. -/
theorem claim_C9_message_accounting_witness :
    (BooleanBEAVYANDGate.onlineMsgs 3 true
        [{ num_simd := 1, secret_share := [true], public_share := [false] }]
        [{ num_simd := 1, secret_share := [false], public_share := [true] }]
        (BooleanBEAVYANDGate.evaluate_setup
          [{ num_simd := 1, secret_share := [true], public_share := [false] }]
          [{ num_simd := 1, secret_share := [false], public_share := [true] }]
          [[true]] [false] [true])).headI.gateId =
      (BooleanBEAVYANDGate.registration 1 3
        [{ num_simd := 1, secret_share := [true], public_share := [false] }]).gate_id ∧
      (BooleanBEAVYANDGate.onlineMsgs 3 true
        [{ num_simd := 1, secret_share := [true], public_share := [false] }]
        [{ num_simd := 1, secret_share := [false], public_share := [true] }]
        (BooleanBEAVYANDGate.evaluate_setup
          [{ num_simd := 1, secret_share := [true], public_share := [false] }]
          [{ num_simd := 1, secret_share := [false], public_share := [true] }]
          [[true]] [false] [true])).headI.numBits =
      (BooleanBEAVYANDGate.registration 1 3
        [{ num_simd := 1, secret_share := [true], public_share := [false] }]).num_bits := by
  exact (claim_C9_message_accounting 1 3 4 0 1 1
    [{ num_simd := 1, secret_share := [true], public_share := [false] }]
    [{ num_simd := 1, secret_share := [false], public_share := [true] }]
    [{ num_simd := 1, secret_share := [true], public_share := [false] }]
    [[true]] [false] [true] true
    [{ num_simd := 1, secret_share := [true], public_share := [false] }]
    [[true]]
    rfl rfl rfl
    (by intro w hw; simp at hw; subst hw; rfl)
    (by intro w hw; simp at hw; subst hw; rfl)
    (by intro w hw; simp at hw; subst hw; rfl)
    (by intro w hw; simp at hw; subst hw; rfl)
    (by intro w hw; simp at hw; subst hw; rfl)
    rfl
    (by intro x hx; simp at hx; subst hx; rfl)
    rfl rfl rfl
    (by intro w hw; simp at hw; subst hw; rfl)
    rfl
    (by intro x hx; simp at hx; subst hx; rfl)).1
    (BooleanBEAVYANDGate.onlineMsgs 3 true
      [{ num_simd := 1, secret_share := [true], public_share := [false] }]
      [{ num_simd := 1, secret_share := [false], public_share := [true] }]
      (BooleanBEAVYANDGate.evaluate_setup
        [{ num_simd := 1, secret_share := [true], public_share := [false] }]
        [{ num_simd := 1, secret_share := [false], public_share := [true] }]
        [[true]] [false] [true])).headI
    (by simp [BooleanBEAVYANDGate.onlineMsgs])

/-! Algebraic support for the AND-gate reconstruction argument. -/

theorem bvXor_assoc (a b c : BV) : bvXor (bvXor a b) c = bvXor a (bvXor b c) := by
  induction a generalizing b c with
  | nil => simp [bvXor]
  | cons x xs ih =>
      cases b with
      | nil => simp [bvXor]
      | cons y ys =>
          cases c with
          | nil => simp [bvXor]
          | cons z zs =>
              simp only [bvXor, List.zipWith_cons_cons] at ih ⊢
              rw [show Bool.xor (Bool.xor x y) z = Bool.xor x (Bool.xor y z) by
                cases x <;> cases y <;> cases z <;> rfl, ih ys zs]

theorem bvXor_cancel_left (t x : BV) (h : x.length ≤ t.length) :
    bvXor t (bvXor t x) = x := by
  induction t generalizing x with
  | nil =>
      cases x with
      | nil => simp [bvXor]
      | cons y ys => simp at h
  | cons a as ih =>
      cases x with
      | nil => simp [bvXor]
      | cons y ys =>
          simp only [bvXor, List.zipWith_cons_cons] at ih ⊢
          rw [show Bool.xor a (Bool.xor a y) = y by cases a <;> cases y <;> rfl,
            ih ys (by simpa using h)]

theorem bvSubset_bvXor (a b : BV) (lo hi : Nat) :
    bvSubset (bvXor a b) lo hi = bvXor (bvSubset a lo hi) (bvSubset b lo hi) := by
  simp only [bvSubset, bvXor, List.drop_zipWith, List.take_zipWith]

theorem bvSubset_bvAnd (a b : BV) (lo hi : Nat) :
    bvSubset (bvAnd a b) lo hi = bvAnd (bvSubset a lo hi) (bvSubset b lo hi) := by
  simp only [bvSubset, bvAnd, List.drop_zipWith, List.take_zipWith]

theorem bvSubset_flatten_uniform (blocks : List BV) (ns i : Nat)
    (h : ∀ b ∈ blocks, b.length = ns) (hi : i < blocks.length) :
    bvSubset blocks.flatten (i * ns) ((i + 1) * ns) = blocks.getD i [] := by
  induction blocks generalizing i with
  | nil => simp at hi
  | cons b bs ih =>
      cases i with
      | zero =>
          simp only [bvSubset, List.flatten_cons, Nat.zero_mul, List.drop_zero,
            Nat.sub_zero, List.getD_cons_zero]
          rw [show (0 + 1) * ns = ns by ring, ← h b (by simp)]
          exact List.take_left b _
      | succ i =>
          simp only [bvSubset, List.flatten_cons, List.getD_cons_succ]
          have e1 : (i + 1 + 1) * ns - (i + 1) * ns = ns := by
            have e : (i + 1 + 1) * ns = (i + 1) * ns + ns := by ring
            omega
          have e2 : (i + 1) * ns - i * ns = ns := by
            have e : (i + 1) * ns = i * ns + ns := by ring
            omega
          rw [e1]
          have h1 : (i + 1) * ns = b.length + i * ns := by rw [h b (by simp)]; ring
          rw [h1, List.drop_append]
          have hrec := ih i (fun c hc => h c (by simp [hc])) (by simpa using hi)
          simp only [bvSubset] at hrec
          rw [e2] at hrec
          exact hrec

/-- The share computed by `onlineShare` after `evaluate_setup`, written out
over the flattened inputs (a definitional repackaging used in the
reconstruction proof). -/
def andShareTree (job : Bool) (da db Da Db c s r : BV) : BV :=
  if job then
    bvXor (bvXor (bvXor (bvXor c (bvXor (bvXor (bvAnd da db) s) r)) (bvAnd Da db))
      (bvAnd Db da)) (bvAnd Da Db)
  else
    bvXor (bvXor (bvXor c (bvXor (bvXor (bvAnd da db) s) r)) (bvAnd Da db)) (bvAnd Db da)

theorem onlineShare_eq_tree (j : Bool) (a b : List BooleanBEAVYWire) (rand : List BV)
    (s_out r_out : BV) :
    BooleanBEAVYANDGate.onlineShare j a b
        (BooleanBEAVYANDGate.evaluate_setup a b rand s_out r_out) =
      andShareTree j (flattenSec a) (flattenSec b) (flattenPub a) (flattenPub b)
        rand.flatten s_out r_out := by
  cases j <;> rfl

theorem and_lane :
    ∀ A0 B0 A1 B1 Da Db C0 C1 S0 S1 R0 R1 : Bool,
      Bool.xor S0 R1 = Bool.and A1 B0 →
      Bool.xor S1 R0 = Bool.and A0 B1 →
      Bool.xor (Bool.xor
          (Bool.xor (Bool.xor (Bool.xor (Bool.xor C0
            (Bool.xor (Bool.xor (Bool.and A0 B0) S0) R0)) (Bool.and Da B0))
            (Bool.and Db A0)) (Bool.and Da Db))
          (Bool.xor (Bool.xor (Bool.xor C1
            (Bool.xor (Bool.xor (Bool.and A1 B1) S1) R1)) (Bool.and Da B1))
            (Bool.and Db A1)))
        (Bool.xor C0 C1) =
      Bool.and (Bool.xor Da (Bool.xor A0 A1)) (Bool.xor Db (Bool.xor B0 B1)) := by
  decide

theorem and_core_job (da0 db0 da1 db1 Da Db c0 c1 s0 s1 r0 r1 : BV)
    (l01 : db0.length = da0.length) (l02 : da1.length = da0.length)
    (l03 : db1.length = da0.length) (l04 : Da.length = da0.length)
    (l05 : Db.length = da0.length) (l06 : c0.length = da0.length)
    (l07 : c1.length = da0.length) (l08 : s0.length = da0.length)
    (l09 : s1.length = da0.length) (l10 : r0.length = da0.length)
    (l11 : r1.length = da0.length)
    (hot0 : bvXor s0 r1 = bvAnd da1 db0) (hot1 : bvXor s1 r0 = bvAnd da0 db1) :
    bvXor (bvXor (andShareTree true da0 db0 Da Db c0 s0 r0)
        (andShareTree false da1 db1 Da Db c1 s1 r1)) (bvXor c0 c1) =
      bvAnd (bvXor Da (bvXor da0 da1)) (bvXor Db (bvXor db0 db1)) := by
  induction da0 generalizing db0 da1 db1 Da Db c0 c1 s0 s1 r0 r1 with
  | nil =>
      obtain rfl : db0 = [] := List.length_eq_zero.1 (by simpa using l01)
      obtain rfl : da1 = [] := List.length_eq_zero.1 (by simpa using l02)
      obtain rfl : db1 = [] := List.length_eq_zero.1 (by simpa using l03)
      obtain rfl : Da = [] := List.length_eq_zero.1 (by simpa using l04)
      obtain rfl : Db = [] := List.length_eq_zero.1 (by simpa using l05)
      obtain rfl : c0 = [] := List.length_eq_zero.1 (by simpa using l06)
      obtain rfl : c1 = [] := List.length_eq_zero.1 (by simpa using l07)
      obtain rfl : s0 = [] := List.length_eq_zero.1 (by simpa using l08)
      obtain rfl : s1 = [] := List.length_eq_zero.1 (by simpa using l09)
      obtain rfl : r0 = [] := List.length_eq_zero.1 (by simpa using l10)
      obtain rfl : r1 = [] := List.length_eq_zero.1 (by simpa using l11)
      simp [andShareTree, bvXor, bvAnd]
  | cons A0 ta0 ih =>
      obtain ⟨B0, tb0, rfl⟩ : ∃ y ys, db0 = y :: ys := by
        cases db0 with
        | nil => simp at l01
        | cons y ys => exact ⟨y, ys, rfl⟩
      obtain ⟨A1, ta1, rfl⟩ : ∃ y ys, da1 = y :: ys := by
        cases da1 with
        | nil => simp at l02
        | cons y ys => exact ⟨y, ys, rfl⟩
      obtain ⟨B1, tb1, rfl⟩ : ∃ y ys, db1 = y :: ys := by
        cases db1 with
        | nil => simp at l03
        | cons y ys => exact ⟨y, ys, rfl⟩
      obtain ⟨DA, tDa, rfl⟩ : ∃ y ys, Da = y :: ys := by
        cases Da with
        | nil => simp at l04
        | cons y ys => exact ⟨y, ys, rfl⟩
      obtain ⟨DB, tDb, rfl⟩ : ∃ y ys, Db = y :: ys := by
        cases Db with
        | nil => simp at l05
        | cons y ys => exact ⟨y, ys, rfl⟩
      obtain ⟨C0, tc0, rfl⟩ : ∃ y ys, c0 = y :: ys := by
        cases c0 with
        | nil => simp at l06
        | cons y ys => exact ⟨y, ys, rfl⟩
      obtain ⟨C1, tc1, rfl⟩ : ∃ y ys, c1 = y :: ys := by
        cases c1 with
        | nil => simp at l07
        | cons y ys => exact ⟨y, ys, rfl⟩
      obtain ⟨S0, ts0, rfl⟩ : ∃ y ys, s0 = y :: ys := by
        cases s0 with
        | nil => simp at l08
        | cons y ys => exact ⟨y, ys, rfl⟩
      obtain ⟨S1, ts1, rfl⟩ : ∃ y ys, s1 = y :: ys := by
        cases s1 with
        | nil => simp at l09
        | cons y ys => exact ⟨y, ys, rfl⟩
      obtain ⟨R0, tr0, rfl⟩ : ∃ y ys, r0 = y :: ys := by
        cases r0 with
        | nil => simp at l10
        | cons y ys => exact ⟨y, ys, rfl⟩
      obtain ⟨R1, tr1, rfl⟩ : ∃ y ys, r1 = y :: ys := by
        cases r1 with
        | nil => simp at l11
        | cons y ys => exact ⟨y, ys, rfl⟩
      simp only [andShareTree, if_true, if_false, Bool.false_eq_true, bvXor, bvAnd,
        List.zipWith_cons_cons, List.cons.injEq] at hot0 hot1 ⊢
      refine ⟨and_lane A0 B0 A1 B1 DA DB C0 C1 S0 S1 R0 R1 hot0.1 hot1.1, ?_⟩
      have htail := ih tb0 ta1 tb1 tDa tDb tc0 tc1 ts0 ts1 tr0 tr1
        (by simpa using l01) (by simpa using l02) (by simpa using l03)
        (by simpa using l04) (by simpa using l05) (by simpa using l06)
        (by simpa using l07) (by simpa using l08) (by simpa using l09)
        (by simpa using l10) (by simpa using l11) hot0.2 hot1.2
      simpa only [andShareTree, if_true, if_false, Bool.false_eq_true, bvXor, bvAnd]
        using htail

theorem and_core (j : Bool) (da0 db0 da1 db1 Da Db c0 c1 s0 s1 r0 r1 : BV)
    (l01 : db0.length = da0.length) (l02 : da1.length = da0.length)
    (l03 : db1.length = da0.length) (l04 : Da.length = da0.length)
    (l05 : Db.length = da0.length) (l06 : c0.length = da0.length)
    (l07 : c1.length = da0.length) (l08 : s0.length = da0.length)
    (l09 : s1.length = da0.length) (l10 : r0.length = da0.length)
    (l11 : r1.length = da0.length)
    (hot0 : bvXor s0 r1 = bvAnd da1 db0) (hot1 : bvXor s1 r0 = bvAnd da0 db1) :
    bvXor (bvXor (andShareTree j da0 db0 Da Db c0 s0 r0)
        (andShareTree (!j) da1 db1 Da Db c1 s1 r1)) (bvXor c0 c1) =
      bvAnd (bvXor Da (bvXor da0 da1)) (bvXor Db (bvXor db0 db1)) := by
  cases j
  · have h := and_core_job da1 db1 da0 db0 Da Db c1 c0 s1 s0 r1 r0
      (by omega) (by omega) (by omega) (by omega) (by omega) (by omega) (by omega)
      (by omega) (by omega) (by omega) (by omega) hot1 hot0
    rw [show (!false) = true from rfl]
    rw [bvXor_comm (andShareTree false da0 db0 Da Db c0 s0 r0)
      (andShareTree true da1 db1 Da Db c1 s1 r1)]
    rw [bvXor_comm c0 c1, h, bvXor_comm da1 da0, bvXor_comm db1 db0]
  · rw [show (!true) = false from rfl]
    exact and_core_job da0 db0 da1 db1 Da Db c0 c1 s0 s1 r0 r1 l01 l02 l03 l04 l05
      l06 l07 l08 l09 l10 l11 hot0 hot1

theorem xor_lane6 :
    ∀ Pa Pb A0 B0 A1 B1 : Bool,
      Bool.xor (Bool.xor Pa Pb) (Bool.xor (Bool.xor A0 B0) (Bool.xor A1 B1)) =
        Bool.xor (Bool.xor Pa (Bool.xor A0 A1)) (Bool.xor Pb (Bool.xor B0 B1)) := by
  decide

theorem xor_recon_core (pa pb A0 B0 A1 B1 : BV)
    (l1 : pb.length = pa.length) (l2 : A0.length = pa.length)
    (l3 : B0.length = pa.length) (l4 : A1.length = pa.length)
    (l5 : B1.length = pa.length) :
    bvXor (bvXor pa pb) (bvXor (bvXor A0 B0) (bvXor A1 B1)) =
      bvXor (bvXor pa (bvXor A0 A1)) (bvXor pb (bvXor B0 B1)) := by
  induction pa generalizing pb A0 B0 A1 B1 with
  | nil =>
      obtain rfl : pb = [] := List.length_eq_zero.1 (by simpa using l1)
      obtain rfl : A0 = [] := List.length_eq_zero.1 (by simpa using l2)
      simp [bvXor]
  | cons x xs ih =>
      obtain ⟨y1, t1, rfl⟩ : ∃ y ys, pb = y :: ys := by
        cases pb with
        | nil => simp at l1
        | cons y ys => exact ⟨y, ys, rfl⟩
      obtain ⟨y2, t2, rfl⟩ : ∃ y ys, A0 = y :: ys := by
        cases A0 with
        | nil => simp at l2
        | cons y ys => exact ⟨y, ys, rfl⟩
      obtain ⟨y3, t3, rfl⟩ : ∃ y ys, B0 = y :: ys := by
        cases B0 with
        | nil => simp at l3
        | cons y ys => exact ⟨y, ys, rfl⟩
      obtain ⟨y4, t4, rfl⟩ : ∃ y ys, A1 = y :: ys := by
        cases A1 with
        | nil => simp at l4
        | cons y ys => exact ⟨y, ys, rfl⟩
      obtain ⟨y5, t5, rfl⟩ : ∃ y ys, B1 = y :: ys := by
        cases B1 with
        | nil => simp at l5
        | cons y ys => exact ⟨y, ys, rfl⟩
      simp only [bvXor, List.zipWith_cons_cons, List.cons.injEq] at ih ⊢
      exact ⟨xor_lane6 x y1 y2 y3 y4 y5,
        ih t1 t2 t3 t4 t5 (by simpa using l1) (by simpa using l2) (by simpa using l3)
          (by simpa using l4) (by simpa using l5)⟩

theorem inv_lane3_left : ∀ P D0 D1 : Bool,
    Bool.xor P (Bool.xor (Bool.not D0) D1) =
      Bool.not (Bool.xor P (Bool.xor D0 D1)) := by
  decide

theorem inv_lane3_right : ∀ P D0 D1 : Bool,
    Bool.xor P (Bool.xor D0 (Bool.not D1)) =
      Bool.not (Bool.xor P (Bool.xor D0 D1)) := by
  decide

theorem inv_core_left (p d0 d1 : BV) (l1 : d0.length = p.length)
    (l2 : d1.length = p.length) :
    bvXor p (bvXor (bvNot d0) d1) = bvNot (bvXor p (bvXor d0 d1)) := by
  induction p generalizing d0 d1 with
  | nil => simp [bvXor, bvNot]
  | cons x xs ih =>
      obtain ⟨y1, t1, rfl⟩ : ∃ y ys, d0 = y :: ys := by
        cases d0 with
        | nil => simp at l1
        | cons y ys => exact ⟨y, ys, rfl⟩
      obtain ⟨y2, t2, rfl⟩ : ∃ y ys, d1 = y :: ys := by
        cases d1 with
        | nil => simp at l2
        | cons y ys => exact ⟨y, ys, rfl⟩
      simp only [bvXor, bvNot, List.map_cons, List.zipWith_cons_cons, List.cons.injEq]
        at ih ⊢
      exact ⟨inv_lane3_left x y1 y2,
        ih t1 t2 (by simpa using l1) (by simpa using l2)⟩

theorem inv_core_right (p d0 d1 : BV) (l1 : d0.length = p.length)
    (l2 : d1.length = p.length) :
    bvXor p (bvXor d0 (bvNot d1)) = bvNot (bvXor p (bvXor d0 d1)) := by
  induction p generalizing d0 d1 with
  | nil => simp [bvXor, bvNot]
  | cons x xs ih =>
      obtain ⟨y1, t1, rfl⟩ : ∃ y ys, d0 = y :: ys := by
        cases d0 with
        | nil => simp at l1
        | cons y ys => exact ⟨y, ys, rfl⟩
      obtain ⟨y2, t2, rfl⟩ : ∃ y ys, d1 = y :: ys := by
        cases d1 with
        | nil => simp at l2
        | cons y ys => exact ⟨y, ys, rfl⟩
      simp only [bvXor, bvNot, List.map_cons, List.zipWith_cons_cons, List.cons.injEq]
        at ih ⊢
      exact ⟨inv_lane3_right x y1 y2,
        ih t1 t2 (by simpa using l1) (by simpa using l2)⟩

theorem and_gate_recon (n ns : Nat) (j : Bool) (a0 b0 a1 b1 : List BooleanBEAVYWire)
    (rand0 rand1 : List BV) (s0 r0 s1 r1 : BV)
    (ha0 : a0.length = n) (hb0 : b0.length = n) (ha1 : a1.length = n)
    (hb1 : b1.length = n) (hq0 : rand0.length = n) (hq1 : rand1.length = n)
    (hsa0 : ∀ w ∈ a0, w.secret_share.length = ns)
    (hsb0 : ∀ w ∈ b0, w.secret_share.length = ns)
    (hsa1 : ∀ w ∈ a1, w.secret_share.length = ns)
    (hsb1 : ∀ w ∈ b1, w.secret_share.length = ns)
    (hpa0 : ∀ w ∈ a0, w.public_share.length = ns)
    (hpb0 : ∀ w ∈ b0, w.public_share.length = ns)
    (hrand0 : ∀ x ∈ rand0, x.length = ns)
    (hrand1 : ∀ x ∈ rand1, x.length = ns)
    (hpubA : a1.map (·.public_share) = a0.map (·.public_share))
    (hpubB : b1.map (·.public_share) = b0.map (·.public_share))
    (hls0 : s0.length = n * ns) (hlr0 : r0.length = n * ns)
    (hls1 : s1.length = n * ns) (hlr1 : r1.length = n * ns)
    (hot0 : bvXor s0 r1 = bvAnd (flattenSec a1) (flattenSec b0))
    (hot1 : bvXor s1 r0 = bvAnd (flattenSec a0) (flattenSec b1))
    (i : Nat) (hi : i < n) :
    recon2
        ((BooleanBEAVYANDGate.onlineWires ns j a0 b0
          (BooleanBEAVYANDGate.evaluate_setup a0 b0 rand0 s0 r0)
          (BooleanBEAVYANDGate.onlineShare (!j) a1 b1
            (BooleanBEAVYANDGate.evaluate_setup a1 b1 rand1 s1 r1))
          (BooleanBEAVYANDGate.setupWires a0 rand0)).getD i default)
        ((BooleanBEAVYANDGate.onlineWires ns (!j) a1 b1
          (BooleanBEAVYANDGate.evaluate_setup a1 b1 rand1 s1 r1)
          (BooleanBEAVYANDGate.onlineShare j a0 b0
            (BooleanBEAVYANDGate.evaluate_setup a0 b0 rand0 s0 r0))
          (BooleanBEAVYANDGate.setupWires a1 rand1)).getD i default) =
      bvAnd (recon2 (a0.getD i default) (a1.getD i default))
        (recon2 (b0.getD i default) (b1.getD i default)) := by
  have hia0 : i < a0.length := by omega
  have hia1 : i < a1.length := by omega
  have hib0 : i < b0.length := by omega
  have hib1 : i < b1.length := by omega
  have hiq0 : i < rand0.length := by omega
  have hiq1 : i < rand1.length := by omega
  have h0out : i < (BooleanBEAVYANDGate.onlineWires ns j a0 b0
      (BooleanBEAVYANDGate.evaluate_setup a0 b0 rand0 s0 r0)
      (BooleanBEAVYANDGate.onlineShare (!j) a1 b1
        (BooleanBEAVYANDGate.evaluate_setup a1 b1 rand1 s1 r1))
      (BooleanBEAVYANDGate.setupWires a0 rand0)).length := by
    simp only [BooleanBEAVYANDGate.onlineWires, BooleanBEAVYANDGate.setupWires,
      List.length_mapIdx, List.length_map]
    omega
  have h1out : i < (BooleanBEAVYANDGate.onlineWires ns (!j) a1 b1
      (BooleanBEAVYANDGate.evaluate_setup a1 b1 rand1 s1 r1)
      (BooleanBEAVYANDGate.onlineShare j a0 b0
        (BooleanBEAVYANDGate.evaluate_setup a0 b0 rand0 s0 r0))
      (BooleanBEAVYANDGate.setupWires a1 rand1)).length := by
    simp only [BooleanBEAVYANDGate.onlineWires, BooleanBEAVYANDGate.setupWires,
      List.length_mapIdx, List.length_map]
    omega
  rw [List.getD_eq_getElem _ _ h0out, List.getD_eq_getElem _ _ h1out,
    List.getD_eq_getElem _ _ hia0, List.getD_eq_getElem _ _ hia1,
    List.getD_eq_getElem _ _ hib0, List.getD_eq_getElem _ _ hib1]
  simp only [BooleanBEAVYANDGate.onlineWires, BooleanBEAVYANDGate.setupWires,
    List.getElem_mapIdx, List.getElem_map, recon2]
  simp only [onlineShare_eq_tree]
  have hfpA : flattenPub a1 = flattenPub a0 := by
    unfold flattenPub
    rw [hpubA]
  have hfpB : flattenPub b1 = flattenPub b0 := by
    unfold flattenPub
    rw [hpubB]
  rw [hfpA, hfpB]
  have hsub0 : bvSubset rand0.flatten (i * ns) ((i + 1) * ns) = rand0[i] := by
    rw [bvSubset_flatten_uniform rand0 ns i hrand0 hiq0,
      List.getD_eq_getElem _ _ hiq0]
  have hsub1 : bvSubset rand1.flatten (i * ns) ((i + 1) * ns) = rand1[i] := by
    rw [bvSubset_flatten_uniform rand1 ns i hrand1 hiq1,
      List.getD_eq_getElem _ _ hiq1]
  rw [← hsub0, ← hsub1, ← bvSubset_bvXor rand0.flatten rand1.flatten,
    ← bvSubset_bvXor]
  have hcore := and_core j (flattenSec a0) (flattenSec b0) (flattenSec a1)
    (flattenSec b1) (flattenPub a0) (flattenPub b0) rand0.flatten rand1.flatten
    s0 s1 r0 r1
    (by rw [length_flattenSec b0 ns hsb0, length_flattenSec a0 ns hsa0, hb0, ha0])
    (by rw [length_flattenSec a1 ns hsa1, length_flattenSec a0 ns hsa0, ha1, ha0])
    (by rw [length_flattenSec b1 ns hsb1, length_flattenSec a0 ns hsa0, hb1, ha0])
    (by rw [length_flattenPub a0 ns hpa0, length_flattenSec a0 ns hsa0])
    (by rw [length_flattenPub b0 ns hpb0, length_flattenSec a0 ns hsa0, hb0, ha0])
    (by rw [length_flatten_uniform rand0 ns hrand0, length_flattenSec a0 ns hsa0,
      hq0, ha0])
    (by rw [length_flatten_uniform rand1 ns hrand1, length_flattenSec a0 ns hsa0,
      hq1, ha0])
    (by rw [hls0, length_flattenSec a0 ns hsa0, ha0])
    (by rw [hls1, length_flattenSec a0 ns hsa0, ha0])
    (by rw [hlr0, length_flattenSec a0 ns hsa0, ha0])
    (by rw [hlr1, length_flattenSec a0 ns hsa0, ha0])
    hot0 hot1
  rw [hcore, bvSubset_bvAnd, bvSubset_bvXor, bvSubset_bvXor, bvSubset_bvXor,
    bvSubset_bvXor]
  have epA : bvSubset (flattenPub a0) (i * ns) ((i + 1) * ns) = a0[i].public_share := by
    unfold flattenPub
    rw [bvSubset_flatten_uniform _ ns i (fun bm hbm => by
        obtain ⟨w, hw, rfl⟩ := List.mem_map.1 hbm
        exact hpa0 w hw) (by simpa using hia0)]
    rw [List.getD_eq_getElem _ _ (by simpa using hia0), List.getElem_map]
  have epB : bvSubset (flattenPub b0) (i * ns) ((i + 1) * ns) = b0[i].public_share := by
    unfold flattenPub
    rw [bvSubset_flatten_uniform _ ns i (fun bm hbm => by
        obtain ⟨w, hw, rfl⟩ := List.mem_map.1 hbm
        exact hpb0 w hw) (by simpa using hib0)]
    rw [List.getD_eq_getElem _ _ (by simpa using hib0), List.getElem_map]
  have esA0 : bvSubset (flattenSec a0) (i * ns) ((i + 1) * ns) =
      a0[i].secret_share := by
    unfold flattenSec
    rw [bvSubset_flatten_uniform _ ns i (fun bm hbm => by
        obtain ⟨w, hw, rfl⟩ := List.mem_map.1 hbm
        exact hsa0 w hw) (by simpa using hia0)]
    rw [List.getD_eq_getElem _ _ (by simpa using hia0), List.getElem_map]
  have esA1 : bvSubset (flattenSec a1) (i * ns) ((i + 1) * ns) =
      a1[i].secret_share := by
    unfold flattenSec
    rw [bvSubset_flatten_uniform _ ns i (fun bm hbm => by
        obtain ⟨w, hw, rfl⟩ := List.mem_map.1 hbm
        exact hsa1 w hw) (by simpa using hia1)]
    rw [List.getD_eq_getElem _ _ (by simpa using hia1), List.getElem_map]
  have esB0 : bvSubset (flattenSec b0) (i * ns) ((i + 1) * ns) =
      b0[i].secret_share := by
    unfold flattenSec
    rw [bvSubset_flatten_uniform _ ns i (fun bm hbm => by
        obtain ⟨w, hw, rfl⟩ := List.mem_map.1 hbm
        exact hsb0 w hw) (by simpa using hib0)]
    rw [List.getD_eq_getElem _ _ (by simpa using hib0), List.getElem_map]
  have esB1 : bvSubset (flattenSec b1) (i * ns) ((i + 1) * ns) =
      b1[i].secret_share := by
    unfold flattenSec
    rw [bvSubset_flatten_uniform _ ns i (fun bm hbm => by
        obtain ⟨w, hw, rfl⟩ := List.mem_map.1 hbm
        exact hsb1 w hw) (by simpa using hib1)]
    rw [List.getD_eq_getElem _ _ (by simpa using hib1), List.getElem_map]
  rw [epA, epB, esA0, esA1, esB0, esB1]

/-- C1: clear-value reconstruction invariant.  For the two-party Boolean
BEAVY gates, with `recon2` the reconstruction `Δ ⊕ δ_party0 ⊕ δ_party1`:
the input sender/receiver pair reproduces the owner's input on every wire;
the XOR gate's outputs reconstruct to the XOR of the inputs' clear values;
the INV gate's outputs (for either assignment of `is_my_job`) reconstruct to
the complement; and the AND gate's outputs (given XCOT-bit semantics for the
two OT instances) reconstruct to the AND of the inputs' clear values. -/
theorem claim_C1_reconstruction_invariant
    (gid n1 ns1 : Nat) (xs rs gs : List BV)
    (hx1 : xs.length = n1) (hr1 : rs.length = n1) (hg1 : gs.length = n1)
    (hxl : ∀ x ∈ xs, x.length = ns1) (hrl : ∀ x ∈ rs, x.length = ns1)
    (hgl : ∀ x ∈ gs, x.length = ns1)
    (n2 ns2 : Nat) (xa0 xb0 xa1 xb1 : List BooleanBEAVYWire)
    (hxa0 : xa0.length = n2) (hxb0 : xb0.length = n2) (hxa1 : xa1.length = n2)
    (hxb1 : xb1.length = n2)
    (hsxa0 : ∀ w ∈ xa0, w.secret_share.length = ns2)
    (hsxb0 : ∀ w ∈ xb0, w.secret_share.length = ns2)
    (hsxa1 : ∀ w ∈ xa1, w.secret_share.length = ns2)
    (hsxb1 : ∀ w ∈ xb1, w.secret_share.length = ns2)
    (hpxa0 : ∀ w ∈ xa0, w.public_share.length = ns2)
    (hpxb0 : ∀ w ∈ xb0, w.public_share.length = ns2)
    (m ns3 : Nat) (jinv : Bool) (iv0 iv1 : List BooleanBEAVYWire)
    (hiv0 : iv0.length = m) (hiv1 : iv1.length = m)
    (hsiv0 : ∀ w ∈ iv0, w.secret_share.length = ns3)
    (hsiv1 : ∀ w ∈ iv1, w.secret_share.length = ns3)
    (hpiv0 : ∀ w ∈ iv0, w.public_share.length = ns3)
    (n ns : Nat) (j : Bool) (a0 b0 a1 b1 : List BooleanBEAVYWire)
    (rand0 rand1 : List BV) (s0 r0 s1 r1 : BV)
    (ha0 : a0.length = n) (hb0 : b0.length = n) (ha1 : a1.length = n)
    (hb1 : b1.length = n) (hq0 : rand0.length = n) (hq1 : rand1.length = n)
    (hsa0 : ∀ w ∈ a0, w.secret_share.length = ns)
    (hsb0 : ∀ w ∈ b0, w.secret_share.length = ns)
    (hsa1 : ∀ w ∈ a1, w.secret_share.length = ns)
    (hsb1 : ∀ w ∈ b1, w.secret_share.length = ns)
    (hpa0 : ∀ w ∈ a0, w.public_share.length = ns)
    (hpb0 : ∀ w ∈ b0, w.public_share.length = ns)
    (hrand0 : ∀ x ∈ rand0, x.length = ns)
    (hrand1 : ∀ x ∈ rand1, x.length = ns)
    (hpubA : a1.map (·.public_share) = a0.map (·.public_share))
    (hpubB : b1.map (·.public_share) = b0.map (·.public_share))
    (hls0 : s0.length = n * ns) (hlr0 : r0.length = n * ns)
    (hls1 : s1.length = n * ns) (hlr1 : r1.length = n * ns)
    (hot0 : bvXor s0 r1 = bvAnd (flattenSec a1) (flattenSec b0))
    (hot1 : bvXor s1 r0 = bvAnd (flattenSec a0) (flattenSec b1)) :
    (∀ i, i < n1 →
      recon2
          ((BooleanBEAVYInputGateSender.evaluate_online gid ns1
            (List.zipWith (fun r g => BooleanBEAVYInputGateSender.setupWire ns1 r [g])
              rs gs) xs).readyWires.getD i default)
          (BooleanBEAVYInputGateReceiver.onlineWire ns1
            (flattenPub (BooleanBEAVYInputGateSender.evaluate_online gid ns1
              (List.zipWith
                (fun r g => BooleanBEAVYInputGateSender.setupWire ns1 r [g])
                rs gs) xs).readyWires) i
            (BooleanBEAVYInputGateReceiver.setupWire ns1 (gs.getD i []))) =
        xs.getD i []) ∧
      (∀ i, i < n2 →
        recon2 ((BooleanBEAVYXORGate.evaluate xa0 xb0).getD i default)
            ((BooleanBEAVYXORGate.evaluate xa1 xb1).getD i default) =
          bvXor (recon2 (xa0.getD i default) (xa1.getD i default))
            (recon2 (xb0.getD i default) (xb1.getD i default))) ∧
      (∀ i, i < m →
        recon2 ((BooleanBEAVYINVGate.evaluate jinv iv0).getD i default)
            ((BooleanBEAVYINVGate.evaluate (!jinv) iv1).getD i default) =
          bvNot (recon2 (iv0.getD i default) (iv1.getD i default))) ∧
      (∀ i, i < n →
        recon2
            ((BooleanBEAVYANDGate.onlineWires ns j a0 b0
              (BooleanBEAVYANDGate.evaluate_setup a0 b0 rand0 s0 r0)
              (BooleanBEAVYANDGate.onlineShare (!j) a1 b1
                (BooleanBEAVYANDGate.evaluate_setup a1 b1 rand1 s1 r1))
              (BooleanBEAVYANDGate.setupWires a0 rand0)).getD i default)
            ((BooleanBEAVYANDGate.onlineWires ns (!j) a1 b1
              (BooleanBEAVYANDGate.evaluate_setup a1 b1 rand1 s1 r1)
              (BooleanBEAVYANDGate.onlineShare j a0 b0
                (BooleanBEAVYANDGate.evaluate_setup a0 b0 rand0 s0 r0))
              (BooleanBEAVYANDGate.setupWires a1 rand1)).getD i default) =
          bvAnd (recon2 (a0.getD i default) (a1.getD i default))
            (recon2 (b0.getD i default) (b1.getD i default))) := by
  refine ⟨?_, ?_, ?_, ?_⟩
  · intro i hi
    have hSlen : (List.zipWith
        (fun r g => BooleanBEAVYInputGateSender.setupWire ns1 r [g]) rs gs).length =
        n1 := by
      simp [hr1, hg1]
    have hloop := senderOnlineLoop_ok ns1
      (List.zipWith (fun r g => BooleanBEAVYInputGateSender.setupWire ns1 r [g]) rs gs)
      xs (by rw [hx1, hSlen]) hxl
    simp only [BooleanBEAVYInputGateSender.evaluate_online, hloop]
    have hri : i < rs.length := by omega
    have hgi : i < gs.length := by omega
    have hxi : i < xs.length := by omega
    have hzip : i < (List.zipWith (fun w x =>
        { w with public_share := bvXor w.public_share x })
        (List.zipWith (fun r g => BooleanBEAVYInputGateSender.setupWire ns1 r [g])
          rs gs) xs).length := by
      simp only [List.length_zipWith]
      omega
    rw [List.getD_eq_getElem _ _ hzip, List.getD_eq_getElem _ _ hxi,
      List.getD_eq_getElem _ _ hgi]
    simp only [List.getElem_zipWith, BooleanBEAVYInputGateSender.setupWire,
      BooleanBEAVYInputGateReceiver.onlineWire, BooleanBEAVYInputGateReceiver.setupWire,
      recon2, List.foldl_cons, List.foldl_nil]
    rw [bvXor_comm]
    refine bvXor_cancel_left _ _ ?_
    rw [length_bvXor, hxl xs[i] (List.getElem_mem hxi), hrl rs[i] (List.getElem_mem hri),
      hgl gs[i] (List.getElem_mem hgi)]
    omega
  · intro i hi
    have hia : i < xa0.length := by omega
    have hib : i < xb0.length := by omega
    have hia1 : i < xa1.length := by omega
    have hib1 : i < xb1.length := by omega
    have h0 : i < (BooleanBEAVYXORGate.evaluate xa0 xb0).length := by
      simp only [BooleanBEAVYXORGate.evaluate, List.length_zipWith]
      omega
    have h1 : i < (BooleanBEAVYXORGate.evaluate xa1 xb1).length := by
      simp only [BooleanBEAVYXORGate.evaluate, List.length_zipWith]
      omega
    rw [List.getD_eq_getElem _ _ h0, List.getD_eq_getElem _ _ h1,
      List.getD_eq_getElem _ _ hia, List.getD_eq_getElem _ _ hia1,
      List.getD_eq_getElem _ _ hib, List.getD_eq_getElem _ _ hib1]
    simp only [BooleanBEAVYXORGate.evaluate, List.getElem_zipWith, recon2]
    exact xor_recon_core xa0[i].public_share xb0[i].public_share
      xa0[i].secret_share xb0[i].secret_share xa1[i].secret_share xb1[i].secret_share
      (by rw [hpxb0 xb0[i] (List.getElem_mem hib), hpxa0 xa0[i] (List.getElem_mem hia)])
      (by rw [hsxa0 xa0[i] (List.getElem_mem hia), hpxa0 xa0[i] (List.getElem_mem hia)])
      (by rw [hsxb0 xb0[i] (List.getElem_mem hib), hpxa0 xa0[i] (List.getElem_mem hia)])
      (by rw [hsxa1 xa1[i] (List.getElem_mem hia1), hpxa0 xa0[i] (List.getElem_mem hia)])
      (by rw [hsxb1 xb1[i] (List.getElem_mem hib1), hpxa0 xa0[i] (List.getElem_mem hia)])
  · intro i hi
    have hi0 : i < iv0.length := by omega
    have hi1 : i < iv1.length := by omega
    cases jinv
    · have h1 : i < (BooleanBEAVYINVGate.evaluate true iv1).length := by
        simp [BooleanBEAVYINVGate.evaluate]
        omega
      simp only [Bool.not_false]
      rw [show BooleanBEAVYINVGate.evaluate false iv0 = iv0 from rfl]
      rw [List.getD_eq_getElem _ _ h1, List.getD_eq_getElem _ _ hi0,
        List.getD_eq_getElem _ _ hi1]
      simp only [BooleanBEAVYINVGate.evaluate, if_true, List.getElem_map, recon2]
      exact inv_core_right iv0[i].public_share iv0[i].secret_share iv1[i].secret_share
        (by rw [hsiv0 iv0[i] (List.getElem_mem hi0), hpiv0 iv0[i] (List.getElem_mem hi0)])
        (by rw [hsiv1 iv1[i] (List.getElem_mem hi1), hpiv0 iv0[i] (List.getElem_mem hi0)])
    · have h0 : i < (BooleanBEAVYINVGate.evaluate true iv0).length := by
        simp [BooleanBEAVYINVGate.evaluate]
        omega
      simp only [Bool.not_true]
      rw [show BooleanBEAVYINVGate.evaluate false iv1 = iv1 from rfl]
      rw [List.getD_eq_getElem _ _ h0, List.getD_eq_getElem _ _ hi0,
        List.getD_eq_getElem _ _ hi1]
      simp only [BooleanBEAVYINVGate.evaluate, if_true, List.getElem_map, recon2]
      exact inv_core_left iv0[i].public_share iv0[i].secret_share iv1[i].secret_share
        (by rw [hsiv0 iv0[i] (List.getElem_mem hi0), hpiv0 iv0[i] (List.getElem_mem hi0)])
        (by rw [hsiv1 iv1[i] (List.getElem_mem hi1), hpiv0 iv0[i] (List.getElem_mem hi0)])
  · intro i hi
    exact and_gate_recon n ns j a0 b0 a1 b1 rand0 rand1 s0 r0 s1 r1 ha0 hb0 ha1 hb1
      hq0 hq1 hsa0 hsb0 hsa1 hsb1 hpa0 hpb0 hrand0 hrand1 hpubA hpubB hls0 hlr0 hls1
      hlr1 hot0 hot1 i hi

/-- Witness for C1 at a concrete two-party instance: one wire, one SIMD lane
for each gate family; the hypotheses (lengths, public-share agreement, XCOT
semantics) hold by computation. -/
theorem claim_C1_reconstruction_invariant_witness :
    recon2
        ((BooleanBEAVYInputGateSender.evaluate_online 0 1
          (List.zipWith (fun r g => BooleanBEAVYInputGateSender.setupWire 1 r [g])
            [[true]] [[false]]) [[true]]).readyWires.getD 0 default)
        (BooleanBEAVYInputGateReceiver.onlineWire 1
          (flattenPub (BooleanBEAVYInputGateSender.evaluate_online 0 1
            (List.zipWith (fun r g => BooleanBEAVYInputGateSender.setupWire 1 r [g])
              [[true]] [[false]]) [[true]]).readyWires) 0
          (BooleanBEAVYInputGateReceiver.setupWire 1
            (([[false]] : List BV).getD 0 []))) =
      ([[true]] : List BV).getD 0 [] ∧
      recon2
          ((BooleanBEAVYANDGate.onlineWires 1 true
            [{ num_simd := 1, secret_share := [true], public_share := [true] }]
            [{ num_simd := 1, secret_share := [false], public_share := [true] }]
            (BooleanBEAVYANDGate.evaluate_setup
              [{ num_simd := 1, secret_share := [true], public_share := [true] }]
              [{ num_simd := 1, secret_share := [false], public_share := [true] }]
              [[true]] [true] [false])
            (BooleanBEAVYANDGate.onlineShare (!true)
              [{ num_simd := 1, secret_share := [false], public_share := [true] }]
              [{ num_simd := 1, secret_share := [true], public_share := [true] }]
              (BooleanBEAVYANDGate.evaluate_setup
                [{ num_simd := 1, secret_share := [false], public_share := [true] }]
                [{ num_simd := 1, secret_share := [true], public_share := [true] }]
                [[false]] [true] [true]))
            (BooleanBEAVYANDGate.setupWires
              [{ num_simd := 1, secret_share := [true], public_share := [true] }]
              [[true]])).getD 0 default)
          ((BooleanBEAVYANDGate.onlineWires 1 (!true)
            [{ num_simd := 1, secret_share := [false], public_share := [true] }]
            [{ num_simd := 1, secret_share := [true], public_share := [true] }]
            (BooleanBEAVYANDGate.evaluate_setup
              [{ num_simd := 1, secret_share := [false], public_share := [true] }]
              [{ num_simd := 1, secret_share := [true], public_share := [true] }]
              [[false]] [true] [true])
            (BooleanBEAVYANDGate.onlineShare true
              [{ num_simd := 1, secret_share := [true], public_share := [true] }]
              [{ num_simd := 1, secret_share := [false], public_share := [true] }]
              (BooleanBEAVYANDGate.evaluate_setup
                [{ num_simd := 1, secret_share := [true], public_share := [true] }]
                [{ num_simd := 1, secret_share := [false], public_share := [true] }]
                [[true]] [true] [false]))
            (BooleanBEAVYANDGate.setupWires
              [{ num_simd := 1, secret_share := [false], public_share := [true] }]
              [[false]])).getD 0 default) =
        bvAnd
          (recon2
            (([{ num_simd := 1, secret_share := [true], public_share := [true] }] :
              List BooleanBEAVYWire).getD 0 default)
            (([{ num_simd := 1, secret_share := [false], public_share := [true] }] :
              List BooleanBEAVYWire).getD 0 default))
          (recon2
            (([{ num_simd := 1, secret_share := [false], public_share := [true] }] :
              List BooleanBEAVYWire).getD 0 default)
            (([{ num_simd := 1, secret_share := [true], public_share := [true] }] :
              List BooleanBEAVYWire).getD 0 default)) := by
  have h := claim_C1_reconstruction_invariant 0 1 1 [[true]] [[true]] [[false]]
    rfl rfl rfl (by decide) (by decide) (by decide)
    1 1
    [{ num_simd := 1, secret_share := [true], public_share := [false] }]
    [{ num_simd := 1, secret_share := [false], public_share := [true] }]
    [{ num_simd := 1, secret_share := [true], public_share := [false] }]
    [{ num_simd := 1, secret_share := [false], public_share := [true] }]
    rfl rfl rfl rfl
    (by decide) (by decide) (by decide) (by decide) (by decide) (by decide)
    1 1 true
    [{ num_simd := 1, secret_share := [true], public_share := [true] }]
    [{ num_simd := 1, secret_share := [false], public_share := [true] }]
    rfl rfl (by decide) (by decide) (by decide)
    1 1 true
    [{ num_simd := 1, secret_share := [true], public_share := [true] }]
    [{ num_simd := 1, secret_share := [false], public_share := [true] }]
    [{ num_simd := 1, secret_share := [false], public_share := [true] }]
    [{ num_simd := 1, secret_share := [true], public_share := [true] }]
    [[true]] [[false]] [true] [false] [true] [true]
    rfl rfl rfl rfl rfl rfl
    (by decide) (by decide) (by decide) (by decide) (by decide) (by decide)
    (by decide) (by decide) (by decide) (by decide)
    (by decide) (by decide) (by decide) (by decide)
    (by decide) (by decide)
  exact ⟨h.1 0 (by decide), h.2.2.2 0 (by decide)⟩

/-- C2: two-party BEAVY AND correctness.  Under XCOT-bit semantics (the XOR
of one party's OT-sender output and the other's OT-receiver output equals the
receiver's choices AND the sender's correlations), after `evaluate_setup`
each party's `Delta_y_share` equals `δ_c ⊕ (δ_a & δ_b) ⊕ ot_sender_out ⊕
ot_receiver_out`, and after `evaluate_online` (adding `Δ_a&δ_b`, `Δ_b&δ_a`,
and `Δ_a&Δ_b` for the `is_my_job` party only, then XORing the exchanged peer
share) the output wire reconstructs `c = a·b` on every wire and every SIMD
lane — which covers every input pair `(a,b) ∈ \{0,1\}²` of clear bits. -/
theorem claim_C2_and_correctness (n ns : Nat) (j : Bool)
    (a0 b0 a1 b1 : List BooleanBEAVYWire) (rand0 rand1 : List BV)
    (s0 r0 s1 r1 : BV)
    (ha0 : a0.length = n) (hb0 : b0.length = n) (ha1 : a1.length = n)
    (hb1 : b1.length = n) (hq0 : rand0.length = n) (hq1 : rand1.length = n)
    (hsa0 : ∀ w ∈ a0, w.secret_share.length = ns)
    (hsb0 : ∀ w ∈ b0, w.secret_share.length = ns)
    (hsa1 : ∀ w ∈ a1, w.secret_share.length = ns)
    (hsb1 : ∀ w ∈ b1, w.secret_share.length = ns)
    (hpa0 : ∀ w ∈ a0, w.public_share.length = ns)
    (hpb0 : ∀ w ∈ b0, w.public_share.length = ns)
    (hrand0 : ∀ x ∈ rand0, x.length = ns)
    (hrand1 : ∀ x ∈ rand1, x.length = ns)
    (hpubA : a1.map (·.public_share) = a0.map (·.public_share))
    (hpubB : b1.map (·.public_share) = b0.map (·.public_share))
    (hls0 : s0.length = n * ns) (hlr0 : r0.length = n * ns)
    (hls1 : s1.length = n * ns) (hlr1 : r1.length = n * ns)
    (hot0 : bvXor s0 r1 = bvAnd (flattenSec a1) (flattenSec b0))
    (hot1 : bvXor s1 r0 = bvAnd (flattenSec a0) (flattenSec b1)) :
    ((BooleanBEAVYANDGate.evaluate_setup a0 b0 rand0 s0 r0).Delta_y_share =
        bvXor (bvXor (bvXor rand0.flatten
          (bvAnd (flattenSec a0) (flattenSec b0))) s0) r0) ∧
      ((BooleanBEAVYANDGate.evaluate_setup a1 b1 rand1 s1 r1).Delta_y_share =
        bvXor (bvXor (bvXor rand1.flatten
          (bvAnd (flattenSec a1) (flattenSec b1))) s1) r1) ∧
      (∀ i, i < n → ∀ k, k < ns →
        (recon2
            ((BooleanBEAVYANDGate.onlineWires ns j a0 b0
              (BooleanBEAVYANDGate.evaluate_setup a0 b0 rand0 s0 r0)
              (BooleanBEAVYANDGate.onlineShare (!j) a1 b1
                (BooleanBEAVYANDGate.evaluate_setup a1 b1 rand1 s1 r1))
              (BooleanBEAVYANDGate.setupWires a0 rand0)).getD i default)
            ((BooleanBEAVYANDGate.onlineWires ns (!j) a1 b1
              (BooleanBEAVYANDGate.evaluate_setup a1 b1 rand1 s1 r1)
              (BooleanBEAVYANDGate.onlineShare j a0 b0
                (BooleanBEAVYANDGate.evaluate_setup a0 b0 rand0 s0 r0))
              (BooleanBEAVYANDGate.setupWires a1 rand1)).getD i default)).getD k false =
          Bool.and
            ((recon2 (a0.getD i default) (a1.getD i default)).getD k false)
            ((recon2 (b0.getD i default) (b1.getD i default)).getD k false)) := by
  refine ⟨?_, ?_, ?_⟩
  · simp only [BooleanBEAVYANDGate.evaluate_setup]
    rw [bvXor_assoc (bvAnd (flattenSec a0) (flattenSec b0)) s0 r0,
      bvXor_assoc (bvXor rand0.flatten (bvAnd (flattenSec a0) (flattenSec b0))) s0 r0,
      bvXor_assoc rand0.flatten (bvAnd (flattenSec a0) (flattenSec b0)) (bvXor s0 r0)]
  · simp only [BooleanBEAVYANDGate.evaluate_setup]
    rw [bvXor_assoc (bvAnd (flattenSec a1) (flattenSec b1)) s1 r1,
      bvXor_assoc (bvXor rand1.flatten (bvAnd (flattenSec a1) (flattenSec b1))) s1 r1,
      bvXor_assoc rand1.flatten (bvAnd (flattenSec a1) (flattenSec b1)) (bvXor s1 r1)]
  · intro i hi k hk
    have hmain := and_gate_recon n ns j a0 b0 a1 b1 rand0 rand1 s0 r0 s1 r1 ha0 hb0
      ha1 hb1 hq0 hq1 hsa0 hsb0 hsa1 hsb1 hpa0 hpb0 hrand0 hrand1 hpubA hpubB hls0
      hlr0 hls1 hlr1 hot0 hot1 i hi
    rw [hmain]
    have hia0 : i < a0.length := by omega
    have hia1 : i < a1.length := by omega
    have hib0 : i < b0.length := by omega
    have hib1 : i < b1.length := by omega
    have hA : (recon2 (a0.getD i default) (a1.getD i default)).length = ns := by
      rw [List.getD_eq_getElem _ _ hia0, List.getD_eq_getElem _ _ hia1]
      simp only [recon2, length_bvXor]
      rw [hpa0 a0[i] (List.getElem_mem hia0), hsa0 a0[i] (List.getElem_mem hia0),
        hsa1 a1[i] (List.getElem_mem hia1)]
      omega
    have hB : (recon2 (b0.getD i default) (b1.getD i default)).length = ns := by
      rw [List.getD_eq_getElem _ _ hib0, List.getD_eq_getElem _ _ hib1]
      simp only [recon2, length_bvXor]
      rw [hpb0 b0[i] (List.getElem_mem hib0), hsb0 b0[i] (List.getElem_mem hib0),
        hsb1 b1[i] (List.getElem_mem hib1)]
      omega
    exact getD_bvAnd _ _ k (by omega) (by omega)

/-- Witness for C2 at a concrete instance: one wire with two SIMD lanes
carrying the clear input pairs `(1,1)` and `(0,1)`; setup-share formula and
per-lane reconstruction both instantiate. -/
theorem claim_C2_and_correctness_witness :
    ((BooleanBEAVYANDGate.evaluate_setup
        [{ num_simd := 2, secret_share := [true, false], public_share := [false, true] }]
        [{ num_simd := 2, secret_share := [false, false], public_share := [true, true] }]
        [[true, true]] [true, false] [false, false]).Delta_y_share =
      bvXor (bvXor (bvXor ([[true, true]] : List BV).flatten
        (bvAnd
          (flattenSec
            [{ num_simd := 2, secret_share := [true, false], public_share := [false, true] }])
          (flattenSec
            [{ num_simd := 2, secret_share := [false, false], public_share := [true, true] }])))
        [true, false]) [false, false]) ∧
      (recon2
          ((BooleanBEAVYANDGate.onlineWires 2 false
            [{ num_simd := 2, secret_share := [true, false], public_share := [false, true] }]
            [{ num_simd := 2, secret_share := [false, false], public_share := [true, true] }]
            (BooleanBEAVYANDGate.evaluate_setup
              [{ num_simd := 2, secret_share := [true, false], public_share := [false, true] }]
              [{ num_simd := 2, secret_share := [false, false], public_share := [true, true] }]
              [[true, true]] [true, false] [false, false])
            (BooleanBEAVYANDGate.onlineShare (!false)
              [{ num_simd := 2, secret_share := [false, true], public_share := [false, true] }]
              [{ num_simd := 2, secret_share := [true, false], public_share := [true, true] }]
              (BooleanBEAVYANDGate.evaluate_setup
                [{ num_simd := 2, secret_share := [false, true], public_share := [false, true] }]
                [{ num_simd := 2, secret_share := [true, false], public_share := [true, true] }]
                [[false, true]] [true, false] [true, false]))
            (BooleanBEAVYANDGate.setupWires
              [{ num_simd := 2, secret_share := [true, false], public_share := [false, true] }]
              [[true, true]])).getD 0 default)
          ((BooleanBEAVYANDGate.onlineWires 2 (!false)
            [{ num_simd := 2, secret_share := [false, true], public_share := [false, true] }]
            [{ num_simd := 2, secret_share := [true, false], public_share := [true, true] }]
            (BooleanBEAVYANDGate.evaluate_setup
              [{ num_simd := 2, secret_share := [false, true], public_share := [false, true] }]
              [{ num_simd := 2, secret_share := [true, false], public_share := [true, true] }]
              [[false, true]] [true, false] [true, false])
            (BooleanBEAVYANDGate.onlineShare false
              [{ num_simd := 2, secret_share := [true, false], public_share := [false, true] }]
              [{ num_simd := 2, secret_share := [false, false], public_share := [true, true] }]
              (BooleanBEAVYANDGate.evaluate_setup
                [{ num_simd := 2, secret_share := [true, false], public_share := [false, true] }]
                [{ num_simd := 2, secret_share := [false, false], public_share := [true, true] }]
                [[true, true]] [true, false] [false, false]))
            (BooleanBEAVYANDGate.setupWires
              [{ num_simd := 2, secret_share := [false, true], public_share := [false, true] }]
              [[false, true]])).getD 0 default)).getD 1 false =
        Bool.and
          ((recon2
            (([{ num_simd := 2, secret_share := [true, false], public_share := [false, true] }] :
              List BooleanBEAVYWire).getD 0 default)
            (([{ num_simd := 2, secret_share := [false, true], public_share := [false, true] }] :
              List BooleanBEAVYWire).getD 0 default)).getD 1 false)
          ((recon2
            (([{ num_simd := 2, secret_share := [false, false], public_share := [true, true] }] :
              List BooleanBEAVYWire).getD 0 default)
            (([{ num_simd := 2, secret_share := [true, false], public_share := [true, true] }] :
              List BooleanBEAVYWire).getD 0 default)).getD 1 false) := by
  have h := claim_C2_and_correctness 1 2 false
    [{ num_simd := 2, secret_share := [true, false], public_share := [false, true] }]
    [{ num_simd := 2, secret_share := [false, false], public_share := [true, true] }]
    [{ num_simd := 2, secret_share := [false, true], public_share := [false, true] }]
    [{ num_simd := 2, secret_share := [true, false], public_share := [true, true] }]
    [[true, true]] [[false, true]]
    [true, false] [false, false] [true, false] [true, false]
    rfl rfl rfl rfl rfl rfl
    (by decide) (by decide) (by decide) (by decide) (by decide) (by decide)
    (by decide) (by decide) (by decide) (by decide)
    (by decide) (by decide) (by decide) (by decide)
    (by decide) (by decide)
  exact ⟨h.1, h.2.2 0 (by decide) 1 (by decide)⟩

theorem output_value_recon (my_id oo : Nat) (hmy : my_id = 0 ∨ my_id = 1)
    (hoo : oo = ALL_PARTIES ∨ oo = my_id) (mine peer : List BooleanBEAVYWire)
    (hlen : mine.length = peer.length)
    (hsec : ∀ i, i < mine.length →
      (peer.getD i default).secret_share.length =
        (mine.getD i default).secret_share.length)
    (hns : ∀ i, i < mine.length →
      (mine.getD i default).secret_share.length = (mine.getD i default).num_simd) :
    BooleanBEAVYOutputGate.onlineValue my_id 2 oo mine (fun _ => flattenSec peer) =
      some (List.zipWith recon2 mine peer) := by
  have hvalue : BooleanBEAVYOutputGate.distribute
      (bvXor (flattenSec mine) (flattenSec peer)) mine 0 =
      List.zipWith recon2 mine peer := by
    rw [show flattenSec mine = (mine.map (·.secret_share)).flatten from rfl,
      show flattenSec peer = (peer.map (·.secret_share)).flatten from rfl]
    rw [bvXor_flatten _ _ (by simp [hlen]) (fun i hi => by
      have him : i < mine.length := by simpa using hi
      have hip : i < peer.length := by omega
      rw [List.getD_eq_getElem _ _ (by simpa using him),
        List.getD_eq_getElem _ _ (by simpa using hip)]
      simp only [List.getElem_map]
      have h1 := hsec i him
      rw [List.getD_eq_getElem _ _ him, List.getD_eq_getElem _ _ hip] at h1
      omega)]
    rw [distribute_flatten _ _ (by simp [List.length_zipWith, hlen]) (fun i hi => ?_),
      zipWith_secret_recon]
    have hip : i < peer.length := by omega
    have h1 := hsec i hi
    have h2 := hns i hi
    rw [List.getD_eq_getElem _ _ hip, List.getD_eq_getElem _ _ hi] at h1
    rw [List.getD_eq_getElem _ _ hi] at h2
    rw [List.getD_eq_getElem _ _ hi]
    rw [List.getD_eq_getElem _ _ (show i <
        (List.zipWith bvXor (mine.map (·.secret_share))
          (peer.map (·.secret_share))).length by
      simp only [List.length_zipWith, List.length_map]
      omega)]
    simp only [List.getElem_zipWith, List.getElem_map, length_bvXor]
    omega
  rcases hmy with rfl | rfl
  · simp only [BooleanBEAVYOutputGate.onlineValue, if_pos hoo]
    rw [show (List.range 2).filter (· ≠ 0) = [1] by decide]
    simp only [List.foldl_cons, List.foldl_nil]
    rw [hvalue]
  · simp only [BooleanBEAVYOutputGate.onlineValue, if_pos hoo]
    rw [show (List.range 2).filter (· ≠ 1) = [0] by decide]
    simp only [List.foldl_cons, List.foldl_nil]
    rw [hvalue]

/-- C3: input-output round trip.  Wiring a `BooleanBEAVYInputGateSender` (at
the owner, party 0) and a `BooleanBEAVYInputGateReceiver` (at party 1, with
the receiver's "their RNG toward the owner" aligned with the owner's "my RNG
toward the peer" bits `gs`) directly into a `BooleanBEAVYOutputGate`
(recipient `ALL_PARTIES` or either single party) makes the recipient's output
future resolve to exactly the owner's input `xs`; the sender's online phase
throws nothing and broadcasts its concatenated public shares. -/
theorem claim_C3_input_output_roundtrip (gid n ns oo : Nat) (xs rs gs : List BV)
    (sWires rw rcv : List BooleanBEAVYWire) (res : SenderOnlineResult)
    (hx : xs.length = n) (hr : rs.length = n) (hg : gs.length = n)
    (hxl : ∀ x ∈ xs, x.length = ns) (hrl : ∀ x ∈ rs, x.length = ns)
    (hgl : ∀ x ∈ gs, x.length = ns)
    (hSW : sWires = List.zipWith
      (fun r g => BooleanBEAVYInputGateSender.setupWire ns r [g]) rs gs)
    (hres : res = BooleanBEAVYInputGateSender.evaluate_online gid ns sWires xs)
    (hrw : rw = res.readyWires)
    (hrcv : rcv = (List.range n).map (fun i =>
      BooleanBEAVYInputGateReceiver.onlineWire ns (flattenPub rw) i
        (BooleanBEAVYInputGateReceiver.setupWire ns (gs.getD i [])))) :
    res.error = none ∧
      res.msgs = [Msg.broadcastBits gid (flattenPub rw)] ∧
      ((oo = ALL_PARTIES ∨ oo = 0) →
        BooleanBEAVYOutputGate.onlineValue 0 2 oo rw (fun _ => flattenSec rcv) =
          some xs) ∧
      ((oo = ALL_PARTIES ∨ oo = 1) →
        BooleanBEAVYOutputGate.onlineValue 1 2 oo rcv (fun _ => flattenSec rw) =
          some xs) := by
  subst hrcv hrw hres hSW
  have hSlen : (List.zipWith
      (fun r g => BooleanBEAVYInputGateSender.setupWire ns r [g]) rs gs).length = n := by
    simp only [List.length_zipWith]
    omega
  have hloop := senderOnlineLoop_ok ns
    (List.zipWith (fun r g => BooleanBEAVYInputGateSender.setupWire ns r [g]) rs gs)
    xs (by rw [hx, hSlen]) hxl
  simp only [BooleanBEAVYInputGateSender.evaluate_online, hloop]
  set RWL := List.zipWith (fun w x => { w with public_share := bvXor w.public_share x })
    (List.zipWith (fun r g => BooleanBEAVYInputGateSender.setupWire ns r [g]) rs gs) xs
    with hRWL
  set RcvL := (List.range n).map (fun i =>
    BooleanBEAVYInputGateReceiver.onlineWire ns (flattenPub RWL) i
      (BooleanBEAVYInputGateReceiver.setupWire ns (gs.getD i []))) with hRcvL
  have hRWlen : RWL.length = n := by
    rw [hRWL]
    simp only [List.length_zipWith]
    omega
  have hRcvlen : RcvL.length = n := by
    rw [hRcvL]
    simp
  have hRWget : ∀ i, i < n → RWL.getD i default =
      { num_simd := ns, secret_share := rs.getD i [],
        public_share := bvXor (bvXor (rs.getD i []) (gs.getD i [])) (xs.getD i []) } := by
    intro i hi
    have h1 : i < rs.length := by omega
    have h2 : i < gs.length := by omega
    have h3 : i < xs.length := by omega
    rw [List.getD_eq_getElem _ _ (by rw [hRWlen]; omega),
      List.getD_eq_getElem _ _ h1, List.getD_eq_getElem _ _ h2,
      List.getD_eq_getElem _ _ h3]
    simp only [hRWL, List.getElem_zipWith, BooleanBEAVYInputGateSender.setupWire,
      List.foldl_cons, List.foldl_nil]
  have hRcvget : ∀ i, i < n → RcvL.getD i default =
      { num_simd := ns, secret_share := gs.getD i [],
        public_share := bvSubset (flattenPub RWL) (i * ns) ((i + 1) * ns) } := by
    intro i hi
    rw [List.getD_eq_getElem _ _ (by rw [hRcvlen]; omega)]
    simp only [hRcvL, List.getElem_map, List.getElem_range,
      BooleanBEAVYInputGateReceiver.onlineWire, BooleanBEAVYInputGateReceiver.setupWire]
  have hRWpub : ∀ bm ∈ RWL.map (·.public_share), bm.length = ns := by
    intro bm hbm
    obtain ⟨i, hilt, rfl⟩ := List.mem_iff_getElem.1 hbm
    have hi : i < n := by
      rw [← hRWlen]
      simpa using hilt
    have := hRWget i hi
    rw [List.getD_eq_getElem _ _ (by rw [hRWlen]; omega)] at this
    rw [List.getElem_map, this]
    simp only [length_bvXor]
    have e1 := hrl (rs.getD i []) (by
      rw [List.getD_eq_getElem _ _ (show i < rs.length by omega)]
      exact List.getElem_mem _)
    have e2 := hgl (gs.getD i []) (by
      rw [List.getD_eq_getElem _ _ (show i < gs.length by omega)]
      exact List.getElem_mem _)
    have e3 := hxl (xs.getD i []) (by
      rw [List.getD_eq_getElem _ _ (show i < xs.length by omega)]
      exact List.getElem_mem _)
    omega
  have hsub : ∀ i, i < n →
      bvSubset (flattenPub RWL) (i * ns) ((i + 1) * ns) =
        (RWL.getD i default).public_share := by
    intro i hi
    unfold flattenPub
    rw [bvSubset_flatten_uniform _ ns i hRWpub (by simp only [List.length_map]; omega)]
    rw [List.getD_eq_getElem _ _ (by simp only [List.length_map]; omega),
      List.getD_eq_getElem _ _ (by omega : i < RWL.length), List.getElem_map]
  have hlenD : ∀ i, i < n →
      (xs.getD i []).length ≤ (bvXor (rs.getD i []) (gs.getD i [])).length := by
    intro i hi
    have e1 := hrl (rs.getD i []) (by
      rw [List.getD_eq_getElem _ _ (show i < rs.length by omega)]
      exact List.getElem_mem _)
    have e2 := hgl (gs.getD i []) (by
      rw [List.getD_eq_getElem _ _ (show i < gs.length by omega)]
      exact List.getElem_mem _)
    have e3 := hxl (xs.getD i []) (by
      rw [List.getD_eq_getElem _ _ (show i < xs.length by omega)]
      exact List.getElem_mem _)
    rw [length_bvXor]
    omega
  have hreconA : ∀ i, i < n →
      recon2 (RWL.getD i default) (RcvL.getD i default) = xs.getD i [] := by
    intro i hi
    rw [hRWget i hi, hRcvget i hi]
    simp only [recon2]
    rw [bvXor_comm]
    exact bvXor_cancel_left _ _ (hlenD i hi)
  have hreconB : ∀ i, i < n →
      recon2 (RcvL.getD i default) (RWL.getD i default) = xs.getD i [] := by
    intro i hi
    rw [hRcvget i hi, hsub i hi, hRWget i hi]
    simp only [recon2]
    rw [bvXor_comm (gs.getD i []) (rs.getD i []), bvXor_comm]
    exact bvXor_cancel_left _ _ (hlenD i hi)
  have hseclen : ∀ i, i < n → (RWL.getD i default).secret_share.length = ns := by
    intro i hi
    rw [hRWget i hi]
    exact hrl (rs.getD i []) (by
      rw [List.getD_eq_getElem _ _ (show i < rs.length by omega)]
      exact List.getElem_mem _)
  have hseclen2 : ∀ i, i < n → (RcvL.getD i default).secret_share.length = ns := by
    intro i hi
    rw [hRcvget i hi]
    exact hgl (gs.getD i []) (by
      rw [List.getD_eq_getElem _ _ (show i < gs.length by omega)]
      exact List.getElem_mem _)
  refine ⟨trivial, trivial, ?_, ?_⟩
  · intro hoo
    have hov := output_value_recon 0 oo (Or.inl rfl) (by tauto) RWL RcvL
      (by omega)
      (fun i hi => by rw [hseclen2 i (by omega), hseclen i (by omega)])
      (fun i hi => by
        rw [hseclen i (by omega), hRWget i (by omega)])
    rw [hov]
    refine congrArg some (List.ext_getElem (by simp only [List.length_zipWith]; omega)
      (fun i h1 h2 => ?_))
    rw [List.getElem_zipWith]
    have hi : i < n := by omega
    have := hreconA i hi
    rw [List.getD_eq_getElem _ _ (by omega : i < RWL.length),
      List.getD_eq_getElem _ _ (by omega : i < RcvL.length),
      List.getD_eq_getElem _ _ (by omega : i < xs.length)] at this
    exact this
  · intro hoo
    have hov := output_value_recon 1 oo (Or.inr rfl) (by tauto) RcvL RWL
      (by omega)
      (fun i hi => by rw [hseclen i (by omega), hseclen2 i (by omega)])
      (fun i hi => by
        rw [hseclen2 i (by omega), hRcvget i (by omega)])
    rw [hov]
    refine congrArg some (List.ext_getElem (by simp only [List.length_zipWith]; omega)
      (fun i h1 h2 => ?_))
    rw [List.getElem_zipWith]
    have hi : i < n := by omega
    have := hreconB i hi
    rw [List.getD_eq_getElem _ _ (by omega : i < RcvL.length),
      List.getD_eq_getElem _ _ (by omega : i < RWL.length),
      List.getD_eq_getElem _ _ (by omega : i < xs.length)] at this
    exact this

/-- Witness for C3 at a concrete instance: two wires, one SIMD lane, input
`[1,0]`, output addressed to `ALL_PARTIES`; the owner's own output future
resolves to the input. -/
theorem claim_C3_input_output_roundtrip_witness :
    BooleanBEAVYOutputGate.onlineValue 0 2 ALL_PARTIES
        ((BooleanBEAVYInputGateSender.evaluate_online 2 1
          (List.zipWith (fun r g => BooleanBEAVYInputGateSender.setupWire 1 r [g])
            [[true], [true]] [[false], [true]]) [[true], [false]]).readyWires)
        (fun _ => flattenSec ((List.range 2).map (fun i =>
          BooleanBEAVYInputGateReceiver.onlineWire 1
            (flattenPub (BooleanBEAVYInputGateSender.evaluate_online 2 1
              (List.zipWith (fun r g => BooleanBEAVYInputGateSender.setupWire 1 r [g])
                [[true], [true]] [[false], [true]]) [[true], [false]]).readyWires) i
            (BooleanBEAVYInputGateReceiver.setupWire 1
              (([[false], [true]] : List BV).getD i []))))) =
      some [[true], [false]] := by
  have h := claim_C3_input_output_roundtrip 2 2 1 ALL_PARTIES
    [[true], [false]] [[true], [true]] [[false], [true]]
    _ _ _ _
    rfl rfl rfl (by decide) (by decide) (by decide) rfl rfl rfl rfl
  exact h.2.2.1 (Or.inl rfl)

end MOTION
